import Mathlib

/-!
Verification of the marketing-insights-dashboard analytical core.

This file shallowly embeds the algorithmic parts of the repository:
  - src/data/processor.py      (tactics priority scoring / categorization)
  - src/utils/competitive_intelligence.py (competitor identification,
    keyword-gap analysis, competitive summary)
  - src/utils/recommendation_engine.py    (roadmap phasing, defaults)

Conventions used throughout the embedding:
  - pandas cell values are modelled by `Option Cell`, where `none` stands
    for a NaN / missing cell and `Cell` is either a rational number or a
    string.  Numeric comparisons against NaN are `false`, numeric sums
    skip NaN, exactly as pandas does (skipna semantics).
  - Python floats are modelled by `ℚ`.  Python `round(x, 1)` is modelled
    by `round1` below; Python rounds float ties to even while `round1`
    rounds ties up, but no theorem in this file depends on a tie.
  - Python `list.sort(key=k, reverse=True)` is a stable descending sort;
    it is modelled by `sortDescBy` (insertion sort with a total key
    order), which computes the unique stable descending ordering.
    `DataFrame.sort_values(..., ascending=False)` (used for the
    per-competitor volume sort) does not document a tie order; the
    embedding fixes the stable order for it as well.
-/

/-- Descending comparison by a key: `a` precedes `b` when `key b ≤ key a`. -/
def byKeyDesc {α : Type} {K : Type} [LinearOrder K] (key : α → K) : α → α → Prop :=
  fun a b => key b ≤ key a

instance byKeyDesc.decidableRel {α K : Type} [LinearOrder K] (key : α → K) :
    DecidableRel (byKeyDesc key) :=
  fun a b => inferInstanceAs (Decidable (key b ≤ key a))

instance byKeyDesc.isTotal {α K : Type} [LinearOrder K] (key : α → K) :
    IsTotal α (byKeyDesc key) :=
  ⟨fun a b => (le_total (key b) (key a)).imp id id⟩

instance byKeyDesc.isTrans {α K : Type} [LinearOrder K] (key : α → K) :
    IsTrans α (byKeyDesc key) :=
  ⟨fun _ _ _ hab hbc => le_trans hbc hab⟩

/-- Stable descending sort by a key, as performed by Python's
`list.sort(key=..., reverse=True)`. -/
def sortDescBy {α K : Type} [LinearOrder K] (key : α → K) (l : List α) : List α :=
  l.insertionSort (byKeyDesc key)

/-- Python's `round(x, 1)`: round to one decimal place. -/
def round1 (x : ℚ) : ℚ := (round (10 * x) : ℤ) / 10

/-- Python's `int(x)` on a float: truncation toward zero. -/
def pyInt (x : ℚ) : ℤ := if 0 ≤ x then ⌊x⌋ else ⌈x⌉

/-- `DataProcessor.process_tactics_matrix` (src/data/processor.py lines
151-154), per merged row:
`merged[P] = (merged[L] * 100) / merged[E].replace(0, 1)` followed by
`merged[P] = merged[P].fillna(0)`, where `L` is the Expected Lift % cell
and `E` the Total Effort cell of the row.  `.replace(0, 1)` substitutes
a denominator of 1 exactly when the effort is 0; a NaN lift or NaN
effort propagates to a NaN score, which `fillna` turns into 0. -/
def priority_score (lift effort : Option ℚ) : ℚ :=
  match lift, effort with
  | some l, some e => (l * 100) / (if e = 0 then 1 else e)
  | _, _ => 0

/-- `DataProcessor.process_tactics_matrix` (src/data/processor.py lines
157-162): `pd.cut(score, bins=[-inf, 0.5, 1.0, 2.0, inf],
labels=[Low, Medium, High, Critical])`, right-closed bins. -/
def priority_category (s : ℚ) : String :=
  if s ≤ 1/2 then "Low"
  else if s ≤ 1 then "Medium"
  else if s ≤ 2 then "High"
  else "Critical"

/-- `CompetitiveIntelligence._calculate_competitive_intensity`
(src/utils/competitive_intelligence.py lines 170-185):
`round(min(o/80*40, 40) + min(t/50*30, 30) + min(g/20*30, 30), 1)`. -/
def competitive_intensity (overlap_pct traffic_share gap_count : ℚ) : ℚ :=
  round1 (min (overlap_pct / 80 * 40) 40 +
          min (traffic_share / 50 * 30) 30 +
          min (gap_count / 20 * 30) 30)

/-- A pandas cell value: a number or a string.  A cell is read as
`Option Cell`, with `none` standing for NaN (or a missing cell after
schema alignment). -/
inductive Cell : Type
  | num (q : ℚ)
  | str (s : String)
deriving DecidableEq

/-- A table row: cell lookup by column name. -/
def Row : Type := String → Option Cell

/-- A pandas DataFrame: ordered column names plus rows.  Cells of
columns outside `cols` are never consulted. -/
structure DataFrame where
  cols : List String
  rows : List Row

/-- `df.empty`: true when the frame has no rows or no columns. -/
def DataFrame.isEmpty (t : DataFrame) : Bool :=
  t.rows.isEmpty || t.cols.isEmpty

/-- Restrict a row to the columns of its source frame: after
`pd.concat` aligns schemas, cells of columns a source frame lacked read
as NaN. -/
def restrictRow (cs : List String) (r : Row) : Row :=
  fun c => if c ∈ cs then r c else none

/-- Append the columns of a further frame to an accumulated column
list, keeping first occurrences (pandas column-union order). -/
def unionCols (acc : List String) : List String → List String
  | [] => acc
  | c :: cs => unionCols (if c ∈ acc then acc else acc ++ [c]) cs

/-- `pd.concat(frames, ignore_index=True)`: columns are the ordered
union, rows are stacked, cells a source frame lacks become NaN. -/
def concatDF (ts : List DataFrame) : DataFrame :=
  { cols := ts.foldl (fun acc t => unionCols acc t.cols) []
    rows := ts.foldr (fun t acc => t.rows.map (restrictRow t.cols) ++ acc) [] }

/-- Numeric reading of a cell; a string cell reads as `none` (pandas
would raise or object-compare on it; every table a theorem below
touches is numeric in the compared columns). -/
def cellNum (v : Option Cell) : Option ℚ :=
  match v with
  | some (.num q) => some q
  | _ => none

/-- `series > 0` on one cell: NaN (and non-numeric) compares false. -/
def cellPos (v : Option Cell) : Bool :=
  match v with
  | some (.num q) => decide (0 < q)
  | _ => false

/-- `series == 0` on one cell: NaN (and non-numeric) compares false. -/
def cellIsZero (v : Option Cell) : Bool :=
  match v with
  | some (.num q) => decide (q = 0)
  | _ => false

/-- pandas `Series.sum()` over a column of the given rows: numeric
cells are added, NaN is skipped (skipna), an empty column sums to 0. -/
def colSumRows (rs : List Row) (c : String) : ℚ :=
  rs.foldr (fun r acc => ((cellNum (r c)).getD 0) + acc) 0

/-- `Row.get(c, default)` (pandas `Series.get`): the default applies
only when the column is absent; a present NaN cell stays NaN. -/
def rowGet (cs : List String) (r : Row) (c : String) (d : Cell) : Option Cell :=
  if c ∈ cs then r c else some d

/-- Python `needle in haystack` on char lists (the embedding scans
`String.toList`, which the kernel can evaluate). -/
def listPrefixOf : List Char → List Char → Bool
  | [], _ => true
  | _ :: _, [] => false
  | a :: as, b :: bs => a == b && listPrefixOf as bs

def listInfixOf (pat : List Char) : List Char → Bool
  | [] => pat.isEmpty
  | b :: rest => listPrefixOf pat (b :: rest) || listInfixOf pat rest

/-- Python `sub in s` for strings. -/
def strContainsSub (sub s : String) : Bool :=
  listInfixOf sub.toList s.toList

/-- Python `ch in s` for a single character. -/
def strHasChar (s : String) (ch : Char) : Bool :=
  s.toList.contains ch

/-- Domain-column predicate of `identify_primary_company`
(src/utils/competitive_intelligence.py line 44): header contains a
period, is not a placeholder, and is not the Search Volume column. -/
def isPrimaryCandidate (c : String) : Bool :=
  strHasChar c '.' && !(strContainsSub "Unnamed" c) && c != "Search Volume"

def primaryCandidateCols (t : DataFrame) : List String :=
  t.cols.filter isPrimaryCandidate

/-- Python `max(items, key=...)` over dict insertion order: the first
item with the maximal key wins; later items replace the best only when
strictly greater. -/
def maxBySumFrom (t : DataFrame) (best : String) : List String → String
  | [] => best
  | c :: cs =>
      maxBySumFrom t (if colSumRows t.rows best < colSumRows t.rows c then c else best) cs

/-- `CompetitiveIntelligence.identify_primary_company` (lines 33-61).
Returns the chosen primary and whether `self.primary_company` was
assigned: the no-domain-columns fallback returns "dossier.co" without
assigning the field. -/
def identify_primary_company (t : DataFrame) : String × Bool :=
  match primaryCandidateCols t with
  | [] => ("dossier.co", false)
  | c :: cs => (maxBySumFrom t c cs, true)

/-- Competitor-column predicate of `identify_competitors_from_keywords`
(line 99): contains a period, no placeholder, and is not the primary. -/
def competitorCols (t : DataFrame) (primary : String) : List String :=
  t.cols.filter (fun c =>
    strHasChar c '.' && !(strContainsSub "Unnamed" c) && c != primary)

/-- Python `str.title()`: uppercase the first character of each
alphabetic run, lowercase the rest. -/
def pyTitleGo : Bool → List Char → List Char
  | _, [] => []
  | prevAlpha, ch :: cs =>
      (if ch.isAlpha then (if prevAlpha then ch.toLower else ch.toUpper) else ch) ::
        pyTitleGo ch.isAlpha cs

def pyTitle (s : String) : String :=
  String.mk (pyTitleGo false s.toList)

/-- `CompetitiveIntelligence._extract_company_name` (lines 161-168):
take the domain up to the first period, map separators to spaces, and
title-case. -/
def extract_company_name (domain : String) : String :=
  pyTitle (String.mk ((domain.toList.takeWhile (fun ch => ch != '.')).map
    (fun ch => if ch = '-' ∨ ch = '_' then ' ' else ch)))

/-- One competitor's profile, as produced by
`identify_competitors_from_keywords` (lines 137-149).  The
`top_gap_keywords` field holds the raw Keyword cells. -/
structure CompetitorInfo where
  domain : String
  company_name : String
  keyword_overlap_count : ℕ
  keyword_overlap_pct : ℚ
  traffic_share_on_overlap : ℚ
  gap_keywords_count : ℕ
  gap_potential_volume : ℤ
  competitive_intensity : ℚ
  top_gap_keywords : List (Option Cell)

/-- Gap-row predicate (lines 125-128 and 227-230): primary traffic
equals 0 and competitor traffic is positive. -/
def isGapRow (primary c : String) (r : Row) : Bool :=
  cellIsZero (r primary) && cellPos (r c)

/-- Overlap rows (lines 107-110): both primary and competitor traffic
positive. -/
def bothPresentRows (t : DataFrame) (primary c : String) : List Row :=
  t.rows.filter (fun r => cellPos (r primary) && cellPos (r c))

/-- The gap rows of one competitor (lines 125-128). -/
def gapRows (t : DataFrame) (primary c : String) : List Row :=
  t.rows.filter (isGapRow primary c)

/-- Keyword-overlap percentage (line 112). -/
def overlap_pct_of (t : DataFrame) (primary c : String) : ℚ :=
  if 0 < t.rows.length then
    ((bothPresentRows t primary c).length : ℚ) / (t.rows.length : ℚ) * 100
  else 0

/-- Traffic share on the overlapping rows (lines 114-122). -/
def traffic_share_of (t : DataFrame) (primary c : String) : ℚ :=
  if (bothPresentRows t primary c).isEmpty then 0
  else
    let pt := colSumRows (bothPresentRows t primary c) primary
    let ct := colSumRows (bothPresentRows t primary c) c
    if 0 < pt + ct then ct / (pt + ct) * 100 else 0

/-- Loop body of `identify_competitors_from_keywords` (lines 102-151)
for one competitor column. -/
def competitorInfoOf (t : DataFrame) (primary : String) (c : String) : CompetitorInfo :=
  { domain := c
    company_name := extract_company_name c
    keyword_overlap_count := (bothPresentRows t primary c).length
    keyword_overlap_pct := round1 (overlap_pct_of t primary c)
    traffic_share_on_overlap := round1 (traffic_share_of t primary c)
    gap_keywords_count := (gapRows t primary c).length
    gap_potential_volume := pyInt
      (if "Search Volume" ∈ t.cols ∧ ¬ (gapRows t primary c).isEmpty then
        colSumRows (gapRows t primary c) "Search Volume"
      else ((gapRows t primary c).length : ℚ) * 1000)
    competitive_intensity := competitive_intensity (overlap_pct_of t primary c)
      (traffic_share_of t primary c) (((gapRows t primary c).length : ℚ))
    top_gap_keywords :=
      if "Keyword" ∈ t.cols then
        ((gapRows t primary c).take 10).map (fun r => r "Keyword")
      else [] }

/-- A value stored in the engine's data mapping: either a Python list
of record dicts (with its implied schema) or a pandas DataFrame stored
directly.  `pd.DataFrame(recs)` copies a list; a frame is aliased. -/
inductive TableVal : Type
  | recs (t : DataFrame)
  | frame (t : DataFrame)

/-- Python truthiness of a stored table: a list is truthy when
nonempty; truth-testing a DataFrame raises ValueError. -/
def pyTruthy : TableVal → Except String Bool
  | .recs t => .ok (!t.rows.isEmpty)
  | .frame _ => .error "ValueError: truth value of a DataFrame is ambiguous"

/-- `pd.DataFrame(x) if isinstance(x, list) else x`: a list of records
is materialized (copied); anything else is used as is. -/
def toFrame : TableVal → DataFrame
  | .recs t => t
  | .frame t => t

/-- One keyword-gap opportunity, as produced by `analyze_keyword_gaps`
(lines 239-247). -/
structure GapEntry where
  keyword : Option Cell
  search_volume : Option Cell
  competitor : String
  competitor_traffic : Option Cell
  gap_type : Option Cell
  opportunity_score : Option ℚ

/-- `CompetitiveIntelligence._calculate_keyword_opportunity_score`
(lines 255-264): two independently capped 50-point terms.  A NaN (or
non-numeric) volume or traffic yields a NaN score. -/
def opportunity_score_of (vol traffic : Option Cell) : Option ℚ :=
  match cellNum vol, cellNum traffic with
  | some v, some tq => some (min (v / 10000 * 50) 50 + min (tq / 1000 * 50) 50)
  | _, _ => none

/-- The mutable fields of a `CompetitiveIntelligence` instance. -/
structure CIState where
  data : String → Option TableVal
  primary_company : Option String
  competitors : List CompetitorInfo
  competitive_gaps : List GapEntry

/-- `self.data.get(k, [])`. -/
def getTable (d : String → Option TableVal) (k : String) : TableVal :=
  (d k).getD (.recs ⟨[], []⟩)

/-- Lines 72-93 of `identify_competitors_from_keywords`: collect the
nonempty keyword frames (paid first, then organic).  Depends only on
the data mapping. -/
def gatherKeywordFrames (d : String → Option TableVal) :
    Except String (List DataFrame) := do
  let kwPaid := getTable d "keywords_paid"
  let pt ← pyTruthy kwPaid
  let l1 : List DataFrame :=
    if pt then (let df := toFrame kwPaid; if df.isEmpty then [] else [df]) else []
  let kwOrg := getTable d "keywords_organic"
  let ot ← pyTruthy kwOrg
  let l2 : List DataFrame :=
    if ot then (let df := toFrame kwOrg; if df.isEmpty then [] else [df]) else []
  pure (l1 ++ l2)

/-- Body of `identify_competitors_from_keywords` once the keyword
frames are in hand (lines 88-159): on no data return the empty list and
leave the state untouched; otherwise identify the primary, profile
every competitor column, and sort by intensity (stable, descending). -/
def identify_core (frames : List DataFrame) (s : CIState) :
    List CompetitorInfo × CIState :=
  if frames.isEmpty then ([], s)
  else
    let combined := concatDF frames
    let pr := identify_primary_company combined
    let s1 := if pr.2 then { s with primary_company := some pr.1 } else s
    let comps := sortDescBy (fun ci => ci.competitive_intensity)
      ((competitorCols combined pr.1).map (competitorInfoOf combined pr.1))
    (comps, { s1 with competitors := comps })

/-- `CompetitiveIntelligence.identify_competitors_from_keywords`
(lines 63-159).  Returns the competitor list and the updated engine
state. -/
def identify_competitors_from_keywords (s : CIState) :
    Except String (List CompetitorInfo × CIState) :=
  (gatherKeywordFrames s.data).map (fun frames => identify_core frames s)

/-- `if not self.competitors: self.identify_competitors_from_keywords()`
(lines 196-197 and elsewhere): lazily compute the competitor cache. -/
def ensureCompetitors (s : CIState) : Except String CIState :=
  if s.competitors.isEmpty then
    (identify_competitors_from_keywords s).map (fun r => r.2)
  else pure s

/-- `df['Type'] = v` (lines 207 and 213): create or overwrite a whole
string column.  In `analyze_keyword_gaps` this always targets a frame
freshly copied from a list of records, never the stored tables. -/
def setTypeCol (t : DataFrame) (v : String) : DataFrame :=
  { cols := if "Type" ∈ t.cols then t.cols else t.cols ++ ["Type"]
    rows := t.rows.map (fun r => fun c => if c = "Type" then some (.str v) else r c) }

/-- Lines 200-214 of `analyze_keyword_gaps`: collect nonempty keyword
frames, tagging each with its Type column. -/
def gatherTypedFrames (d : String → Option TableVal) :
    Except String (List DataFrame) := do
  let kwPaid := getTable d "keywords_paid"
  let pt ← pyTruthy kwPaid
  let l1 : List DataFrame :=
    if pt then
      (let df := toFrame kwPaid; if df.isEmpty then [] else [setTypeCol df "Paid"])
    else []
  let kwOrg := getTable d "keywords_organic"
  let ot ← pyTruthy kwOrg
  let l2 : List DataFrame :=
    if ot then
      (let df := toFrame kwOrg; if df.isEmpty then [] else [setTypeCol df "Organic"])
    else []
  pure (l1 ++ l2)

/-- Sort key for `sort_values('Search Volume', ascending=False)`: NaN
sorts last (pandas default na_position), modelled as bottom. -/
def volKey (r : Row) : WithBot ℚ :=
  match cellNum (r "Search Volume") with
  | some q => (q : WithBot ℚ)
  | none => ⊥

/-- Per-competitor part of `analyze_keyword_gaps` (lines 222-247):
guard on column membership, filter gap rows, sort by volume, keep 10,
and build the gap entries. -/
def gapEntriesFor (combined : DataFrame) (primary : String) (comp : CompetitorInfo) :
    List GapEntry :=
  if comp.domain ∈ combined.cols ∧ primary ∈ combined.cols then
    let gaps := gapRows combined primary comp.domain
    if ¬ gaps.isEmpty ∧ "Search Volume" ∈ combined.cols then
      ((sortDescBy volKey gaps).take 10).map (fun r =>
        { keyword := rowGet combined.cols r "Keyword" (.str "")
          search_volume := rowGet combined.cols r "Search Volume" (.num 0)
          competitor := comp.company_name
          competitor_traffic := rowGet combined.cols r comp.domain (.num 0)
          gap_type := rowGet combined.cols r "Type" (.str "Organic")
          opportunity_score := opportunity_score_of
            (rowGet combined.cols r "Search Volume" (.num 0))
            (rowGet combined.cols r comp.domain (.num 0)) })
    else []
  else []

/-- Key of the global gap sort (line 250).  Python sorts the raw float
scores; a NaN key would make that sort meaningless, so theorems only
evaluate it on numeric scores (`getD 0` never decides an order there). -/
def gapSortKey (e : GapEntry) : ℚ :=
  e.opportunity_score.getD 0

/-- Body of `analyze_keyword_gaps` after the competitor cache is in
place (lines 199-253).  Stores the full globally-sorted gap list in the
state and returns only its first 20 entries. -/
def analyze_core (s1 : CIState) : Except String (List GapEntry × CIState) :=
  (gatherTypedFrames s1.data).map (fun frames =>
    if frames.isEmpty then ([], s1)
    else
      let combined := concatDF frames
      let entries := ((s1.competitors.take 5).map (fun comp =>
        match s1.primary_company with
        | some p => gapEntriesFor combined p comp
        | none => [])).foldr (· ++ ·) []
      let sortedAll := sortDescBy gapSortKey entries
      (sortedAll.take 20, { s1 with competitive_gaps := sortedAll }))

/-- `CompetitiveIntelligence.analyze_keyword_gaps` (lines 187-253). -/
def analyze_keyword_gaps (s : CIState) : Except String (List GapEntry × CIState) := do
  let s1 ← ensureCompetitors s
  analyze_core s1

/-- `if not self.competitive_gaps: self.analyze_keyword_gaps()`
(lines 282-283 and 342-343): lazily compute the gap cache. -/
def ensureGaps (s : CIState) : Except String CIState :=
  if s.competitive_gaps.isEmpty then
    (analyze_keyword_gaps s).map (fun r => r.2)
  else pure s

/-- A competitive tactic template, as synthesized by
`generate_competitive_tactics` (lines 293-328).  Only the fields with
algorithmic content are modelled; the prose fields (tactic text,
rationale, competitive context, expected lift, KPI lists,
implementation steps) are rendered strings no claim refers to. -/
structure TacticRec where
  category : String
  priority : String
  gap_type : String
  effort : ℕ
  timeline : String
  keywords : List (Option Cell)

/-- `CompetitiveIntelligence.generate_competitive_tactics`
(lines 266-330). -/
def generate_competitive_tactics (s : CIState) (top_n : ℕ) :
    Except String (List TacticRec × CIState) := do
  let s1 ← ensureCompetitors s
  let s2 ← ensureGaps s1
  let t1 : List TacticRec :=
    if s2.competitive_gaps.isEmpty then []
    else [{ category := "SEO/Content", priority := "Critical",
            gap_type := "Keyword Gap", effort := 6, timeline := "2-3 months",
            keywords := ((s2.competitive_gaps.take 10).map
              (fun g => g.keyword)).take 5 }]
  let t2 : List TacticRec :=
    if s2.competitors.isEmpty then []
    else [{ category := "SEO Optimization", priority := "High",
            gap_type := "Share of Voice", effort := 7, timeline := "3-4 months",
            keywords := [] }]
  return ((t1 ++ t2).take top_n, s2)

/-- The summary mapping returned by `get_competitive_summary`
(lines 349-356). -/
structure CompetitiveSummary where
  primary_company : Option String
  competitor_count : ℕ
  top_competitors : List CompetitorInfo
  total_keyword_gaps : ℕ
  total_gap_potential_volume : Option ℚ
  avg_competitive_intensity : ℚ

/-- Python `sum(cells)` over stored cells: numeric cells add up; a NaN
term poisons the total (and a string term would raise), both modelled
as `none`. -/
def pySumCells : List (Option Cell) → Option ℚ
  | [] => some 0
  | v :: vs =>
      match cellNum v, pySumCells vs with
      | some q, some acc => some (q + acc)
      | _, _ => none

/-- `CompetitiveIntelligence.get_competitive_summary` (lines 332-356).
The totals range over `self.competitive_gaps` — the full stored gap
list — not over the 20 entries `analyze_keyword_gaps` returned. -/
def summary_out (s2 : CIState) : CompetitiveSummary :=
  let totalVol := pySumCells (s2.competitive_gaps.map (fun g => g.search_volume))
  let avg : ℚ :=
    if s2.competitors.isEmpty then 0
    else ((s2.competitors.map (fun c => c.competitive_intensity)).sum : ℚ) /
      (s2.competitors.length : ℚ)
  { primary_company := s2.primary_company
    competitor_count := s2.competitors.length
    top_competitors := s2.competitors.take 5
    total_keyword_gaps := s2.competitive_gaps.length
    total_gap_potential_volume := totalVol
    avg_competitive_intensity := round1 avg }

/-- `CompetitiveIntelligence.get_competitive_summary` (lines 332-356).
The totals range over `self.competitive_gaps` — the full stored gap
list — not over the 20 entries `analyze_keyword_gaps` returned. -/
def get_competitive_summary (s : CIState) :
    Except String (CompetitiveSummary × CIState) := do
  let s1 ← ensureCompetitors s
  let s2 ← ensureGaps s1
  return (summary_out s2, s2)

/-- `series < b` on one cell (NaN and non-numeric compare false). -/
def cellLt (v : Option Cell) (b : ℚ) : Bool :=
  match cellNum v with
  | some q => decide (q < b)
  | none => false

/-- `series > b` on one cell (NaN and non-numeric compare false). -/
def cellGt (v : Option Cell) (b : ℚ) : Bool :=
  match cellNum v with
  | some q => decide (b < q)
  | none => false

/-- pandas `Series.mean()`: mean of the numeric cells; `none` (NaN)
when there are none. -/
def colMean (t : DataFrame) (c : String) : Option ℚ :=
  let vals := t.rows.filterMap (fun r => cellNum (r c))
  if vals.isEmpty then none else some (vals.sum / (vals.length : ℚ))

/-- A strengths/weaknesses finding of
`RecommendationEngine.analyze_current_state` (the prose message is not
modelled; no claim refers to it). -/
structure Finding where
  ftype : String
  value : Option ℚ

/-- A quick-wins opportunity record of `analyze_current_state`. -/
structure OppFinding where
  otype : String
  count : ℕ
  tactics : List (Option Cell)

/-- The `current_state` mapping of the recommendation engine. -/
structure CurrentState where
  strengths : List Finding
  weaknesses : List Finding
  opportunities : List OppFinding

/-- The mutable fields of a `RecommendationEngine` instance.  The
static `industry_context` is modelled by the flag recording whether it
has been set (its contents only feed unmodelled prose). -/
structure RecState where
  data : String → Option TableVal
  goals : List String
  current_state : Option CurrentState
  industry_context : Bool

/-- Threshold findings for one averaged column: `none` when the mean is
NaN or in the dead zone; the weakness test runs first (elif). -/
def meanFinding (ftype : String) (m : Option ℚ) (lowBound highBound : ℚ) :
    Option (Bool × Finding) :=
  match m with
  | some a =>
      if a < lowBound then some (false, ⟨ftype, some a⟩)
      else if highBound < a then some (true, ⟨ftype, some a⟩)
      else none
  | none => none

/-- `RecommendationEngine.analyze_current_state`
(src/utils/recommendation_engine.py lines 30-125): scans the tactics,
web-vitals and traffic tables and classifies findings; sets
`self.current_state`. -/
def analyze_current_state (s : RecState) : Except String (CurrentState × RecState) := do
  let tacticsVal := getTable s.data "tactics"
  let tt ← pyTruthy tacticsVal
  let opportunities : List OppFinding :=
    if tt then
      let df := toFrame tacticsVal
      if "Total Effort" ∈ df.cols ∧ "Expected Lift %" ∈ df.cols then
        let qw := df.rows.filter (fun r =>
          cellLt (r "Total Effort") 10 && cellGt (r "Expected Lift %") (1/200))
        if qw.isEmpty then []
        else [{ otype := "quick_wins", count := qw.length,
                tactics := if "Marketing Tactic" ∈ df.cols then
                    qw.map (fun r => r "Marketing Tactic") else [] }]
      else []
    else []
  let vitalsVal := getTable s.data "web_vitals"
  let vt ← pyTruthy vitalsVal
  let vitalsDF := toFrame vitalsVal
  let perf : Option (Bool × Finding) :=
    if vt ∧ "Performance" ∈ vitalsDF.cols then
      meanFinding "performance" (colMean vitalsDF "Performance") 70 85
    else none
  let seo : Option (Bool × Finding) :=
    if vt ∧ "SEO" ∈ vitalsDF.cols then
      meanFinding "seo" (colMean vitalsDF "SEO") 85 92
    else none
  let trafficVal := getTable s.data "traffic_data"
  let rt ← pyTruthy trafficVal
  let trafficDF := toFrame trafficVal
  let growth : Option (Bool × Finding) :=
    if rt ∧ "YoY Growth %" ∈ trafficDF.cols then
      match colMean trafficDF "YoY Growth %" with
      | some a =>
          if a < 0 then some (false, ⟨"traffic_decline", some a⟩)
          else if 20 < a then some (true, ⟨"traffic_growth", some a⟩)
          else none
      | none => none
    else none
  let picks := [perf, seo, growth].filterMap id
  let cs : CurrentState :=
    { strengths := (picks.filter (fun p => p.1)).map (fun p => p.2)
      weaknesses := (picks.filter (fun p => !p.1)).map (fun p => p.2)
      opportunities := opportunities }
  return (cs, { s with current_state := some cs })

/-- One generated recommendation (lines 235-247 and 330-356).  The
prose fields (rationale, formatted lift, industry-context note) are not
modelled; no claim refers to them. -/
structure Recommendation where
  tactic : Option Cell
  funnel_stage : String
  priority : String
  effort : ℤ
  timeline : String
  kpis : List String
  score : Option ℚ

/-- The fixed funnel-stage → KPI lookup (`_get_kpis_for_stage`,
lines 291-300). -/
def kpis_for_stage (stage : String) : List String :=
  if stage = "Acquisition" then
    ["Organic traffic", "Click-through rate", "New visitors"]
  else if stage = "Conversion" then
    ["Conversion rate", "Lead generation", "Form submissions"]
  else if stage = "LTV" then
    ["Customer lifetime value", "Repeat purchase rate", "Average order value"]
  else if stage = "User Experience" then
    ["Bounce rate", "Session duration", "Page speed"]
  else ["Traffic", "Engagement", "Conversions"]

/-- Priority tier from the Priority Score cell (lines 207-214): a NaN
score fails every strict comparison and lands on Low. -/
def priority_of_score (scoreOpt : Option ℚ) : String :=
  match scoreOpt with
  | some ps =>
      if 2 < ps then "Critical"
      else if 1 < ps then "High"
      else if 1/2 < ps then "Medium"
      else "Low"
  | none => "Low"

/-- Timeline bucket from the effort value (lines 220-227); a NaN effort
fails every comparison and lands on the last bucket. -/
def timeline_of_effort (effortOpt : Option ℚ) : String :=
  match effortOpt with
  | some e =>
      if e < 5 then "1-2 weeks"
      else if e < 10 then "3-4 weeks"
      else if e < 15 then "2-3 months"
      else "3-6 months"
  | none => "3-6 months"

/-- Loop body of `generate_recommendations` (lines 195-249) for the row
at position `idx`.  Errors model Python exceptions: `stage.lower()` in
`_generate_rationale` raises on a non-string funnel-stage cell, and
`int(effort)` raises on a NaN effort. -/
def recommendation_of_row (cs : List String) (idx : ℕ) (r : Row) :
    Except String Recommendation := do
  let fallback : Option Cell :=
    rowGet cs r "Tactics" (.str ("Tactic " ++ toString (idx + 1)))
  let tacticCell : Option Cell :=
    if "Marketing Tactic" ∈ cs then r "Marketing Tactic" else fallback
  let effortCell := rowGet cs r "Total Effort" (.num 5)
  let liftCell := rowGet cs r "Expected Lift %" (.num (1/20))
  let stageCell := rowGet cs r "Focus (Funnel Stage)" (.str "Unknown")
  let scoreOpt := cellNum (rowGet cs r "Priority Score" (.num 1))
  let stage ← match stageCell with
    | some (.str st) => pure st
    | _ => .error "AttributeError: funnel stage has no attribute lower"
  let effortInt ← match cellNum effortCell with
    | some e => pure (pyInt e)
    | none => .error "ValueError: cannot convert float NaN to integer"
  let _ := cellNum liftCell
  return { tactic := tacticCell
           funnel_stage := stage
           priority := priority_of_score scoreOpt
           effort := effortInt
           timeline := timeline_of_effort (cellNum effortCell)
           kpis := kpis_for_stage stage
           score := scoreOpt }

/-- Fold a list of fallible computations, preserving order. -/
def exceptMapList {α β : Type} (f : α → Except String β) :
    List α → Except String (List β)
  | [] => .ok []
  | a :: as => do
      let b ← f a
      let bs ← exceptMapList f as
      pure (b :: bs)

/-- `RecommendationEngine._generate_from_weaknesses` (lines 320-358):
canned recommendations keyed off detected weaknesses. -/
def generate_from_weaknesses (cs : Option CurrentState) : List Recommendation :=
  match cs with
  | none => []
  | some st =>
      st.weaknesses.foldr (fun w acc =>
        (if w.ftype = "seo" then
          [{ tactic := some (.str "Implement Technical SEO Improvements")
             funnel_stage := "Acquisition", priority := "High", effort := 5
             timeline := "4-6 weeks"
             kpis := ["Organic traffic", "Search rankings", "Click-through rate"]
             score := some (5/2) }]
        else if w.ftype = "performance" then
          [{ tactic := some (.str "Optimize Core Web Vitals")
             funnel_stage := "User Experience", priority := "Critical", effort := 8
             timeline := "2-3 months"
             kpis := ["Page speed", "Bounce rate", "Conversion rate"]
             score := some (11/5) }]
        else []) ++ acc) []

/-- Key of the final recommendation sort (line 256):
`x.get('score', 0)` — every record carries a score; Python would sort
NaN keys meaninglessly, so theorems only evaluate numeric scores. -/
def recSortKey (r : Recommendation) : ℚ :=
  r.score.getD 0

/-- `RecommendationEngine.generate_recommendations` (lines 174-258). -/
def generate_recommendations (s : RecState) :
    Except String (List Recommendation × RecState) := do
  let s1 ←
    if s.current_state.isNone then do
      let r ← analyze_current_state s
      pure r.2
    else pure s
  let s2 := if ¬ s1.industry_context then { s1 with industry_context := true } else s1
  let tacticsVal := getTable s2.data "tactics"
  let tt ← pyTruthy tacticsVal
  let recs ←
    if tt then
      let df := toFrame tacticsVal
      exceptMapList (fun p => recommendation_of_row df.cols p.1 p.2)
        (df.rows.take 10).enum
    else pure []
  let recs2 := if recs.isEmpty then generate_from_weaknesses s2.current_state else recs
  return (sortDescBy recSortKey recs2, s2)

/-- `RecommendationEngine.create_implementation_roadmap`
(lines 360-393): partition the ranked recommendations into three
effort/priority buckets and cap each phase.  Phases with no matching
recommendation are left out of the mapping. -/
def qwPred (r : Recommendation) : Bool :=
  decide (r.effort < 10) && (r.priority == "Critical" || r.priority == "High")

def mpPred (r : Recommendation) : Bool :=
  decide (10 ≤ r.effort) && (r.priority == "Critical" || r.priority == "High")

def stPred (r : Recommendation) : Bool :=
  r.priority == "Medium"

def create_implementation_roadmap (recommendations : List Recommendation) :
    List (String × List Recommendation) :=
  if recommendations.isEmpty then []
  else
    let quick_wins := recommendations.filter qwPred
    let major_projects := recommendations.filter mpPred
    let strategic := recommendations.filter stPred
    (if quick_wins.isEmpty then [] else
      [("Phase 1 (Month 1-2): Quick Wins", quick_wins.take 3)]) ++
    (if major_projects.isEmpty then [] else
      [("Phase 2 (Month 3-4): Major Initiatives", major_projects.take 2)]) ++
    (if strategic.isEmpty then [] else
      [("Phase 3 (Month 5-6): Strategic Optimization", strategic.take 2)])

/-- An executive-summary insight tile (only the title identifies the
tile; icon, prose description and color are fixed per title and not
modelled). -/
structure Insight where
  title : String

/-- `RecommendationEngine.generate_executive_insights`
(lines 395-499): at most 4 tiles, with a fixed default when no data
produced any. -/
def generate_executive_insights (s : RecState) :
    Except String (List Insight × RecState) := do
  let s1 ←
    if s.current_state.isNone then do
      let r ← analyze_current_state s
      pure r.2
    else pure s
  let cs := s1.current_state.getD ⟨[], [], []⟩
  let strengthTile : List Insight :=
    if cs.strengths.isEmpty then [] else [⟨"Strong Foundation"⟩]
  let oppTile : List Insight :=
    if cs.opportunities.isEmpty then [] else [⟨"Growth Opportunities"⟩]
  let weakTile : List Insight :=
    if cs.weaknesses.isEmpty then [] else [⟨"Areas for Improvement"⟩]
  let tacticsVal := getTable s1.data "tactics"
  let keywordsVal := getTable s1.data "keywords_organic"
  let tt ← pyTruthy tacticsVal
  let kt ← pyTruthy keywordsVal
  let dataTile : List Insight :=
    if tt ∨ kt then
      let parts :=
        (if tt ∧ ¬ (toFrame tacticsVal).isEmpty then 1 else 0) +
        (if kt ∧ ¬ (toFrame keywordsVal).isEmpty then (1:ℕ) else 0)
      if 0 < parts then [⟨"Data Overview"⟩] else []
    else []
  let insights := strengthTile ++ oppTile ++ weakTile ++ dataTile
  let final := if insights.isEmpty then [⟨"Marketing Performance Analysis"⟩] else insights
  return (final.take 4, s1)

/-- The initial engine state over two keyword tables stored as lists of
records (`keywords_paid` and `keywords_organic`), as the dashboard's
data store holds them. -/
def initCI (t1 t2 : DataFrame) : CIState :=
  { data := fun k =>
      if k = "keywords_paid" then some (.recs t1)
      else if k = "keywords_organic" then some (.recs t2)
      else none
    primary_company := none
    competitors := []
    competitive_gaps := [] }

/-- A fresh engine over the empty data mapping `{}`. -/
def emptyCI : CIState :=
  { data := fun _ => none, primary_company := none
    competitors := [], competitive_gaps := [] }

/-- A fresh recommendation engine over the empty data mapping `{}`
(default goals, nothing cached). -/
def emptyRec : RecState :=
  { data := fun _ => none, goals := ["acquisition", "conversion"]
    current_state := none, industry_context := false }

/-- The keyword frames `gatherKeywordFrames` collects on an `initCI`
state: each table participates iff it is truthy and non-empty. -/
def keywordFramesOf (t1 t2 : DataFrame) : List DataFrame :=
  (if t1.isEmpty then [] else [t1]) ++ (if t2.isEmpty then [] else [t2])

/-- The Type-tagged frames `gatherTypedFrames` collects on an `initCI`
state. -/
def typedFramesOf (t1 t2 : DataFrame) : List DataFrame :=
  (if t1.isEmpty then [] else [setTypeCol t1 "Paid"]) ++
  (if t2.isEmpty then [] else [setTypeCol t2 "Organic"])

/-- The spec's description of the keyword-gap pipeline, written from
the spec text alone (for the refinement claim): for each of the top-5
competitors take the gap rows, sort by volume descending, keep 10,
build scored entries, concatenate, sort globally by score descending,
keep 20.  Unlike the code it has no column-presence guards. -/
def spec_keyword_gaps (combined : DataFrame) (primary : String)
    (comps : List CompetitorInfo) : List GapEntry :=
  (sortDescBy gapSortKey
    (((comps.take 5).map (fun comp =>
      ((sortDescBy volKey (gapRows combined primary comp.domain)).take 10).map
        (fun r =>
          { keyword := rowGet combined.cols r "Keyword" (.str "")
            search_volume := rowGet combined.cols r "Search Volume" (.num 0)
            competitor := comp.company_name
            competitor_traffic := rowGet combined.cols r comp.domain (.num 0)
            gap_type := rowGet combined.cols r "Type" (.str "Organic")
            opportunity_score := opportunity_score_of
              (rowGet combined.cols r "Search Volume" (.num 0))
              (rowGet combined.cols r comp.domain (.num 0)) }))).foldr (· ++ ·)
      [])).take 20

/-- The combined keyword frame `identify_competitors_from_keywords`
builds on an `initCI` state. -/
def ciCombined (t1 t2 : DataFrame) : DataFrame :=
  concatDF (keywordFramesOf t1 t2)

/-- The primary company chosen on an `initCI` state. -/
def ciPrimary (t1 t2 : DataFrame) : String :=
  (identify_primary_company (ciCombined t1 t2)).1

/-- The competitor profiles in column-discovery order, before sorting. -/
def ciBaseCompetitors (t1 t2 : DataFrame) : List CompetitorInfo :=
  (competitorCols (ciCombined t1 t2) (ciPrimary t1 t2)).map
    (competitorInfoOf (ciCombined t1 t2) (ciPrimary t1 t2))

/-- The combined Type-tagged frame `analyze_keyword_gaps` builds on an
`initCI` state. -/
def gapsCombined (t1 t2 : DataFrame) : DataFrame :=
  concatDF (typedFramesOf t1 t2)

/-- The sorted competitor list `identify_competitors_from_keywords`
produces on an `initCI` state. -/
def ciCompetitors (t1 t2 : DataFrame) : List CompetitorInfo :=
  sortDescBy (fun ci => ci.competitive_intensity) (ciBaseCompetitors t1 t2)

/-- The engine state after `identify_competitors_from_keywords` on an
`initCI` state whose keyword data is nonempty with a domain column. -/
def ciState1 (t1 t2 : DataFrame) : CIState :=
  { data := (initCI t1 t2).data
    primary_company := some (ciPrimary t1 t2)
    competitors := ciCompetitors t1 t2
    competitive_gaps := [] }

/-- The full globally-sorted gap list `analyze_keyword_gaps` stores
(only its first 20 entries are returned). -/
def ciAllGaps (t1 t2 : DataFrame) : List GapEntry :=
  sortDescBy gapSortKey
    ((((ciCompetitors t1 t2).take 5).map (fun comp =>
      gapEntriesFor (gapsCombined t1 t2) (ciPrimary t1 t2) comp)).foldr (· ++ ·) [])

/-- The engine state after `analyze_keyword_gaps`. -/
def ciState2 (t1 t2 : DataFrame) : CIState :=
  { ciState1 t1 t2 with competitive_gaps := ciAllGaps t1 t2 }

/-- A concrete keyword row over a primary (p.com) and one competitor
(a.com) column. -/
def wRowA (p a sv : ℚ) : Row := fun c =>
  if c = "Search Volume" then some (.num sv)
  else if c = "p.com" then some (.num p)
  else if c = "a.com" then some (.num a)
  else none

def wt1 : DataFrame :=
  ⟨["Search Volume", "p.com", "a.com"], [wRowA 5 3 100, wRowA 0 2 50]⟩

def wt2 : DataFrame :=
  ⟨["Search Volume", "p.com", "a.com"], [wRowA 1 0 10]⟩

/-- A concrete keyword row over a primary (P.com) and three competitor
columns, used to build more than 20 gap entries. -/
def ceRow (p a b c sv : ℚ) : Row := fun col =>
  if col = "Search Volume" then some (.num sv)
  else if col = "P.com" then some (.num p)
  else if col = "a.com" then some (.num a)
  else if col = "b.com" then some (.num b)
  else if col = "c.com" then some (.num c)
  else none

/-- Twelve keyword rows: one overlap row that makes P.com the primary, ten
rows that are gap rows for both a.com and b.com, and one gap row for
c.com — 21 gap entries in total, exceeding the top-20 cut. -/
def ce1 : DataFrame :=
  ⟨["Search Volume", "P.com", "a.com", "b.com", "c.com"],
   [ceRow 100 0 0 0 1,
    ceRow 0 1 1 0 2, ceRow 0 1 1 0 3, ceRow 0 1 1 0 4, ceRow 0 1 1 0 5,
    ceRow 0 1 1 0 6, ceRow 0 1 1 0 7, ceRow 0 1 1 0 8, ceRow 0 1 1 0 9,
    ceRow 0 1 1 0 10, ceRow 0 1 1 0 11,
    ceRow 0 0 0 1 12]⟩

def ce2 : DataFrame := ⟨[], []⟩

/-- A keyword table whose Search Volume column is present with a
numeric value in every row (no NaN): the precondition under which the
keyword-gap pipeline is meaningfully specified. -/
def cleanVolumes (t : DataFrame) : Prop :=
  "Search Volume" ∈ t.cols ∧
    ∀ r ∈ t.rows, (cellNum (r "Search Volume")).isSome = true

/-- The conclusions C5 asserts about the keyword-gap list. -/
def c5Prop (t1 t2 : DataFrame) : Prop :=
  ∀ res s', analyze_keyword_gaps (initCI t1 t2) = .ok (res, s') →
    res = spec_keyword_gaps (gapsCombined t1 t2) (ciPrimary t1 t2)
      (ciCompetitors t1 t2) ∧
    res.length ≤ 20 ∧
    List.Sorted (fun a b => gapSortKey b ≤ gapSortKey a) res ∧
    (∀ e ∈ res, ∃ q, e.opportunity_score = some q ∧ q ≤ 100)

/-- A concrete quick-win recommendation used to exercise the roadmap. -/
def rec0d : Recommendation :=
  { tactic := some (.str "Improve landing pages"), funnel_stage := "Conversion"
    priority := "Critical", effort := 5, timeline := "3-4 weeks"
    kpis := ["Conversion rate"], score := some 3 }

theorem sortDescBy_sorted {α K : Type} [LinearOrder K] (key : α → K) (l : List α) :
    List.Sorted (byKeyDesc key) (sortDescBy key l) :=
  List.sorted_insertionSort _ l

theorem sortDescBy_perm {α K : Type} [LinearOrder K] (key : α → K) (l : List α) :
    List.Perm (sortDescBy key l) l :=
  List.perm_insertionSort _ l

theorem mem_sortDescBy {α K : Type} [LinearOrder K] {key : α → K} {l : List α}
    {a : α} : a ∈ sortDescBy key l ↔ a ∈ l :=
  (sortDescBy_perm key l).mem_iff

theorem filter_orderedInsert_key {α K : Type} [LinearOrder K] (key : α → K)
    (v : K) (a : α) (l : List α) :
    (l.orderedInsert (byKeyDesc key) a).filter (fun x => decide (key x = v)) =
      if key a = v then a :: l.filter (fun x => decide (key x = v))
      else l.filter (fun x => decide (key x = v)) := by
  induction l with
  | nil =>
      by_cases hav : key a = v <;>
        simp [List.orderedInsert, List.filter, hav]
  | cons b l ih =>
      by_cases hr : byKeyDesc key a b
      · rw [List.orderedInsert_of_le _ _ hr]
        by_cases hav : key a = v <;> simp [List.filter, hav]
      · have hr' : ¬ key b ≤ key a := hr
        have hab : key a < key b := lt_of_not_le hr'
        have hstep : (b :: l).orderedInsert (byKeyDesc key) a =
            b :: l.orderedInsert (byKeyDesc key) a := by
          simp only [List.orderedInsert, if_neg hr]
        rw [hstep]
        simp only [List.filter_cons, ih]
        by_cases hbv : key b = v
        · have hav : key a ≠ v := by
            intro h
            rw [h, hbv] at hab
            exact lt_irrefl v hab
          simp [hbv, hav]
        · by_cases hav : key a = v <;> simp [hbv, hav]

theorem sortDescBy_stable_filter {α K : Type} [LinearOrder K] (key : α → K)
    (v : K) (l : List α) :
    (sortDescBy key l).filter (fun x => decide (key x = v)) =
      l.filter (fun x => decide (key x = v)) := by
  induction l with
  | nil => rfl
  | cons a l ih =>
      show ((sortDescBy key l).orderedInsert (byKeyDesc key) a).filter _ = _
      rw [filter_orderedInsert_key]
      by_cases hav : key a = v <;> simp [List.filter, hav, ih]

theorem round1_mono {x y : ℚ} (h : x ≤ y) : round1 x ≤ round1 y := by
  unfold round1
  have h2 : round (10 * x) ≤ round (10 * y) := by
    rw [round_eq, round_eq]
    exact Int.floor_le_floor (by linarith)
  have h3 : ((round (10 * x) : ℤ) : ℚ) ≤ ((round (10 * y) : ℤ) : ℚ) := by
    exact_mod_cast h2
  gcongr

theorem round1_zero : round1 0 = 0 := by
  norm_num [round1]

theorem round1_hundred : round1 100 = 100 := by
  norm_num [round1]

/-- C1 (counterexample): the claim computes priority_score with
denominator `max(total_effort, 1)`, but the code replaces the
denominator only when it is exactly 0.  At total_effort = 1/2 and
expected_lift_pct = 1/10 the code yields 20 while the claimed formula
yields 10. -/
theorem c1_counterexample :
    priority_score (some (1/10)) (some (1/2)) = 20 ∧
    ((1:ℚ)/10 * 100) / max ((1:ℚ)/2) 1 = 10 ∧
    priority_score (some (1/10)) (some (1/2)) ≠
      ((1:ℚ)/10 * 100) / max ((1:ℚ)/2) 1 := by
  refine ⟨?_, ?_, ?_⟩ <;> norm_num [priority_score, max_def]

/-- C1 (amended): each row's priority_score equals
(expected_lift_pct × 100) divided by total_effort with a denominator of
1 substituted exactly when total_effort = 0 (this agrees with
max(total_effort, 1) whenever total_effort is 0 or at least 1, in
particular for integer efforts); a row with total_effort = 0 and
expected_lift_pct = 0.1 gets priority_score 10, category Critical; and
rows with a missing lift or effort get priority_score 0. -/
theorem c1_priority_score_amended :
    (∀ l e : ℚ, priority_score (some l) (some e) =
        (l * 100) / (if e = 0 then 1 else e)) ∧
    (∀ l e : ℚ, e = 0 ∨ 1 ≤ e →
        priority_score (some l) (some e) = (l * 100) / max e 1) ∧
    priority_score (some (1/10)) (some 0) = 10 ∧
    priority_category (priority_score (some (1/10)) (some 0)) = "Critical" ∧
    (∀ v : Option ℚ, priority_score none v = 0 ∧ priority_score v none = 0) := by
  refine ⟨fun l e => rfl, ?_, by norm_num [priority_score], ?_, ?_⟩
  · intro l e he
    rcases he with he | he
    · subst he; simp [priority_score, max_def]
    · have h0 : e ≠ 0 := by linarith
      have hm : max e 1 = e := max_eq_left (by linarith)
      simp [priority_score, h0, hm]
  · norm_num [priority_score, priority_category]
  · intro v
    constructor
    · rfl
    · cases v <;> rfl

theorem c1_witness :
    priority_score (some 3) (some 7) = ((3:ℚ) * 100) / max (7:ℚ) 1 :=
  c1_priority_score_amended.2.1 3 7 (Or.inr (by norm_num))

/-- C2: priority_category bins priority_score right-closed:
(-∞,0.5] → Low, (0.5,1] → Medium, (1,2] → High, (2,∞) → Critical; in
particular score 0.5 is Low and score 2 is High. -/
theorem c2_priority_category_bins :
    (∀ s : ℚ, s ≤ 1/2 → priority_category s = "Low") ∧
    (∀ s : ℚ, 1/2 < s → s ≤ 1 → priority_category s = "Medium") ∧
    (∀ s : ℚ, 1 < s → s ≤ 2 → priority_category s = "High") ∧
    (∀ s : ℚ, 2 < s → priority_category s = "Critical") ∧
    priority_category (1/2) = "Low" ∧
    priority_category 2 = "High" := by
  refine ⟨?_, ?_, ?_, ?_, ?_, ?_⟩
  · intro s h
    rw [priority_category, if_pos h]
  · intro s h1 h2
    rw [priority_category, if_neg (by linarith), if_pos h2]
  · intro s h1 h2
    rw [priority_category, if_neg (by linarith), if_neg (by linarith), if_pos h2]
  · intro s h
    rw [priority_category, if_neg (by linarith), if_neg (by linarith),
      if_neg (by linarith)]
  · norm_num [priority_category]
  · norm_num [priority_category]

theorem c2_witness : priority_category (3/4) = "Medium" :=
  c2_priority_category_bins.2.1 (3/4) (by norm_num) (by norm_num)

/-- C3 (counterexample): the claim asserts competitive_intensity equals
the raw sum of the three capped terms and always lies in [0,100].  Both
parts fail on the code: the result is rounded to one decimal (at
overlap_pct = 3/100 the raw sum is 3/200 but the code returns 0), and a
negative overlap_pct drives the result below 0 (at overlap_pct = -1000
the code returns -500). -/
theorem c3_counterexample :
    competitive_intensity (3/100) 0 0 ≠
      min ((3/100 : ℚ) / 80 * 40) 40 + min ((0:ℚ) / 50 * 30) 30 +
        min ((0:ℚ) / 20 * 30) 30 ∧
    competitive_intensity (-1000) 0 0 < 0 := by
  constructor
  · norm_num [competitive_intensity, round1, round_eq, min_def, Int.floor_eq_iff]
  · norm_num [competitive_intensity, round1, round_eq, min_def, Int.floor_eq_iff]

/-- C3 (amended): competitive_intensity is the 1-decimal rounding of
min(overlap/80×40, 40) + min(share/50×30, 30) + min(gaps/20×30, 30);
for nonnegative inputs it lies within [0,100]; and at
(overlap, share, gaps) = (80, 50, 20) it equals exactly 100. -/
theorem c3_intensity_amended :
    (∀ o t g : ℚ, competitive_intensity o t g =
        round1 (min (o / 80 * 40) 40 + min (t / 50 * 30) 30 +
          min (g / 20 * 30) 30)) ∧
    (∀ o t g : ℚ, 0 ≤ o → 0 ≤ t → 0 ≤ g →
        0 ≤ competitive_intensity o t g ∧ competitive_intensity o t g ≤ 100) ∧
    competitive_intensity 80 50 20 = 100 := by
  refine ⟨fun o t g => rfl, ?_, ?_⟩
  · intro o t g ho ht hg
    have h1 : (0:ℚ) ≤ min (o / 80 * 40) 40 := le_min (by positivity) (by norm_num)
    have h2 : (0:ℚ) ≤ min (t / 50 * 30) 30 := le_min (by positivity) (by norm_num)
    have h3 : (0:ℚ) ≤ min (g / 20 * 30) 30 := le_min (by positivity) (by norm_num)
    have u1 : min (o / 80 * 40) 40 ≤ 40 := min_le_right _ _
    have u2 : min (t / 50 * 30) 30 ≤ 30 := min_le_right _ _
    have u3 : min (g / 20 * 30) 30 ≤ 30 := min_le_right _ _
    unfold competitive_intensity
    constructor
    · calc (0:ℚ) = round1 0 := round1_zero.symm
        _ ≤ _ := round1_mono (by linarith)
    · calc round1 (min (o / 80 * 40) 40 + min (t / 50 * 30) 30 + min (g / 20 * 30) 30)
          ≤ round1 100 := round1_mono (by linarith)
        _ = 100 := round1_hundred
  · unfold competitive_intensity
    rw [min_eq_right (by norm_num), min_eq_right (by norm_num),
      min_eq_right (by norm_num), show (40:ℚ) + 30 + 30 = 100 by norm_num,
      round1_hundred]

theorem c3_witness :
    0 ≤ competitive_intensity 80 50 20 ∧ competitive_intensity 80 50 20 ≤ 100 :=
  c3_intensity_amended.2.1 80 50 20 (by norm_num) (by norm_num) (by norm_num)

theorem identify_core_data (frames : List DataFrame) (s : CIState) :
    (identify_core frames s).2.data = s.data := by
  unfold identify_core
  by_cases hf : frames.isEmpty
  · simp [hf]
  · by_cases hp : (identify_primary_company (concatDF frames)).2 <;> simp [hf, hp]

theorem identify_data_eq {s : CIState} {res : List CompetitorInfo} {s' : CIState}
    (h : identify_competitors_from_keywords s = .ok (res, s')) : s'.data = s.data := by
  unfold identify_competitors_from_keywords at h
  cases hg : gatherKeywordFrames s.data with
  | error e => rw [hg] at h; exact absurd h (by simp [Except.map])
  | ok frames =>
      rw [hg] at h
      simp only [Except.map, Except.ok.injEq] at h
      have h2 := identify_core_data frames s
      rw [h] at h2
      exact h2

theorem ensureCompetitors_data {s s1 : CIState}
    (h : ensureCompetitors s = .ok s1) : s1.data = s.data := by
  unfold ensureCompetitors at h
  by_cases hc : s.competitors.isEmpty
  · rw [if_pos hc] at h
    cases hi : identify_competitors_from_keywords s with
    | error e => rw [hi] at h; exact absurd h (by simp [Except.map])
    | ok r =>
        rw [hi] at h
        simp only [Except.map, Except.ok.injEq] at h
        rw [← h]
        exact @identify_data_eq s r.1 r.2 (by rw [hi])
  · rw [if_neg hc] at h
    simp only [pure, Except.pure, Except.ok.injEq] at h
    rw [← h]

theorem analyze_core_data {s1 : CIState} {res : List GapEntry} {s2 : CIState}
    (h : analyze_core s1 = .ok (res, s2)) : s2.data = s1.data := by
  unfold analyze_core at h
  cases hg : gatherTypedFrames s1.data with
  | error e => rw [hg] at h; exact absurd h (by simp [Except.map])
  | ok frames =>
      rw [hg] at h
      simp only [Except.map, Except.ok.injEq] at h
      by_cases hf : frames.isEmpty
      · rw [if_pos hf] at h
        cases h
        rfl
      · rw [if_neg hf] at h
        cases h
        rfl

theorem analyze_data_eq {s : CIState} {res : List GapEntry} {s' : CIState}
    (h : analyze_keyword_gaps s = .ok (res, s')) : s'.data = s.data := by
  unfold analyze_keyword_gaps at h
  cases he : ensureCompetitors s with
  | error e =>
      rw [he] at h
      exact absurd h (by simp [Bind.bind, Except.bind])
  | ok s1 =>
      rw [he] at h
      simp only [Bind.bind, Except.bind] at h
      have h2 := analyze_core_data h
      rw [h2]
      exact ensureCompetitors_data he

/-- C7: the engine's public analysis methods never mutate the tables in
the data mapping: whenever `identify_competitors_from_keywords` or
`analyze_keyword_gaps` completes, the final state holds the same data
mapping (same tables, same columns, same cells) as before the call.
(The in-place Type-column assignment inside `analyze_keyword_gaps`
always targets a frame freshly constructed from a stored list of
records; a mapping that stored a DataFrame directly makes the method
raise at its truthiness test before anything is written.) -/
theorem c7_no_input_mutation (s : CIState) :
    (∀ res s', identify_competitors_from_keywords s = .ok (res, s') →
      s'.data = s.data) ∧
    (∀ res s', analyze_keyword_gaps s = .ok (res, s') → s'.data = s.data) :=
  ⟨fun _ _ h => identify_data_eq h, fun _ _ h => analyze_data_eq h⟩

theorem c7_witness :
    ((emptyCI.data = emptyCI.data) ∧ (emptyCI.data = emptyCI.data)) :=
  ⟨(c7_no_input_mutation emptyCI).1 [] emptyCI rfl,
   (c7_no_input_mutation emptyCI).2 [] emptyCI rfl⟩

/-- C8: on the empty input mapping `{}` every public engine method
returns its empty or default result and never raises: empty competitor,
gap, tactic, recommendation lists, an all-zero summary, an empty
current-state, an empty roadmap, and the single default insight tile. -/
theorem c8_empty_input_defaults :
    (identify_competitors_from_keywords emptyCI).map Prod.fst = .ok [] ∧
    (analyze_keyword_gaps emptyCI).map Prod.fst = .ok [] ∧
    (generate_competitive_tactics emptyCI 5).map Prod.fst = .ok [] ∧
    (get_competitive_summary emptyCI).map Prod.fst = .ok
      { primary_company := none, competitor_count := 0, top_competitors := []
        total_keyword_gaps := 0, total_gap_potential_volume := some 0
        avg_competitive_intensity := 0 } ∧
    (analyze_current_state emptyRec).map Prod.fst = .ok ⟨[], [], []⟩ ∧
    (generate_recommendations emptyRec).map Prod.fst = .ok [] ∧
    create_implementation_roadmap [] = [] ∧
    (generate_executive_insights emptyRec).map Prod.fst =
      .ok [⟨"Marketing Performance Analysis"⟩] := by
  refine ⟨rfl, rfl, rfl, ?_, rfl, rfl, rfl, rfl⟩
  have h : (get_competitive_summary emptyCI).map Prod.fst = .ok
      { primary_company := none, competitor_count := 0, top_competitors := []
        total_keyword_gaps := 0, total_gap_potential_volume := some 0
        avg_competitive_intensity := round1 0 } := rfl
  rw [h, round1_zero]

theorem roadmap_cases {recs : List Recommendation} {p : String × List Recommendation}
    (hp : p ∈ create_implementation_roadmap recs) :
    p = ("Phase 1 (Month 1-2): Quick Wins", (recs.filter qwPred).take 3) ∨
    p = ("Phase 2 (Month 3-4): Major Initiatives", (recs.filter mpPred).take 2) ∨
    p = ("Phase 3 (Month 5-6): Strategic Optimization", (recs.filter stPred).take 2) := by
  unfold create_implementation_roadmap at hp
  by_cases h0 : recs.isEmpty
  · rw [if_pos h0] at hp
    exact absurd hp (List.not_mem_nil p)
  · rw [if_neg h0] at hp
    simp only [List.mem_append] at hp
    rcases hp with (hp | hp) | hp
    · left
      split_ifs at hp with h
      · exact absurd hp (List.not_mem_nil p)
      · simpa using hp
    · right; left
      split_ifs at hp with h
      · exact absurd hp (List.not_mem_nil p)
      · simpa using hp
    · right; right
      split_ifs at hp with h
      · exact absurd hp (List.not_mem_nil p)
      · simpa using hp

/-- C9: every roadmap keeps Phase 1 to at most 3 recommendations and
Phases 2 and 3 to at most 2 each, and the three phases are drawn from
mutually exclusive (effort, priority) buckets, so no recommendation
appears in more than one phase. -/
theorem c9_roadmap_phases (recs : List Recommendation) :
    (∀ ps, ("Phase 1 (Month 1-2): Quick Wins", ps) ∈
        create_implementation_roadmap recs → ps.length ≤ 3) ∧
    (∀ ps, ("Phase 2 (Month 3-4): Major Initiatives", ps) ∈
        create_implementation_roadmap recs → ps.length ≤ 2) ∧
    (∀ ps, ("Phase 3 (Month 5-6): Strategic Optimization", ps) ∈
        create_implementation_roadmap recs → ps.length ≤ 2) ∧
    (∀ p q r, p ∈ create_implementation_roadmap recs →
      q ∈ create_implementation_roadmap recs → p.1 ≠ q.1 →
      r ∈ p.2 → r ∈ q.2 → False) := by
  have hqw : ∀ r ∈ recs.filter qwPred, r.effort < 10 ∧
      (r.priority = "Critical" ∨ r.priority = "High") := by
    intro r hr
    have := List.of_mem_filter hr
    unfold qwPred at this
    simp only [Bool.and_eq_true, decide_eq_true_eq, Bool.or_eq_true,
      beq_iff_eq] at this
    exact this
  have hmp : ∀ r ∈ recs.filter mpPred, 10 ≤ r.effort ∧
      (r.priority = "Critical" ∨ r.priority = "High") := by
    intro r hr
    have := List.of_mem_filter hr
    unfold mpPred at this
    simp only [Bool.and_eq_true, decide_eq_true_eq, Bool.or_eq_true,
      beq_iff_eq] at this
    exact this
  have hst : ∀ r ∈ recs.filter stPred, r.priority = "Medium" := by
    intro r hr
    have := List.of_mem_filter hr
    unfold stPred at this
    simpa only [beq_iff_eq] using this
  refine ⟨?_, ?_, ?_, ?_⟩
  · intro ps hps
    rcases roadmap_cases hps with h | h | h
    · have h2 : ps = (recs.filter qwPred).take 3 := congrArg Prod.snd h
      rw [h2, List.length_take]
      exact min_le_left _ _
    · exact absurd (congrArg Prod.fst h) (by simp)
    · exact absurd (congrArg Prod.fst h) (by simp)
  · intro ps hps
    rcases roadmap_cases hps with h | h | h
    · exact absurd (congrArg Prod.fst h) (by simp)
    · have h2 : ps = (recs.filter mpPred).take 2 := congrArg Prod.snd h
      rw [h2, List.length_take]
      exact min_le_left _ _
    · exact absurd (congrArg Prod.fst h) (by simp)
  · intro ps hps
    rcases roadmap_cases hps with h | h | h
    · exact absurd (congrArg Prod.fst h) (by simp)
    · exact absurd (congrArg Prod.fst h) (by simp)
    · have h2 : ps = (recs.filter stPred).take 2 := congrArg Prod.snd h
      rw [h2, List.length_take]
      exact min_le_left _ _
  · intro p q r hp hq hne hrp hrq
    rcases roadmap_cases hp with h1 | h1 | h1 <;>
      rcases roadmap_cases hq with h2 | h2 | h2 <;>
        rw [h1] at hrp hne <;> rw [h2] at hrq hne
    · exact hne rfl
    · obtain ⟨he1, _⟩ := hqw r (List.take_subset _ _ hrp)
      obtain ⟨he2, _⟩ := hmp r (List.take_subset _ _ hrq)
      omega
    · obtain ⟨_, hp1⟩ := hqw r (List.take_subset _ _ hrp)
      have hp2 := hst r (List.take_subset _ _ hrq)
      rcases hp1 with h | h <;> rw [h] at hp2 <;> simp at hp2
    · obtain ⟨he1, _⟩ := hmp r (List.take_subset _ _ hrp)
      obtain ⟨he2, _⟩ := hqw r (List.take_subset _ _ hrq)
      omega
    · exact hne rfl
    · obtain ⟨_, hp1⟩ := hmp r (List.take_subset _ _ hrp)
      have hp2 := hst r (List.take_subset _ _ hrq)
      rcases hp1 with h | h <;> rw [h] at hp2 <;> simp at hp2
    · have hp2 := hst r (List.take_subset _ _ hrp)
      obtain ⟨_, hp1⟩ := hqw r (List.take_subset _ _ hrq)
      rcases hp1 with h | h <;> rw [h] at hp2 <;> simp at hp2
    · have hp2 := hst r (List.take_subset _ _ hrp)
      obtain ⟨_, hp1⟩ := hmp r (List.take_subset _ _ hrq)
      rcases hp1 with h | h <;> rw [h] at hp2 <;> simp at hp2
    · exact hne rfl

theorem c9_witness : ([rec0d] : List Recommendation).length ≤ 3 :=
  (c9_roadmap_phases [rec0d]).1 [rec0d] (by
    rw [show create_implementation_roadmap [rec0d] =
      [("Phase 1 (Month 1-2): Quick Wins", [rec0d])] from rfl]
    exact List.mem_singleton.mpr rfl)

theorem gather_init (t1 t2 : DataFrame) :
    gatherKeywordFrames (initCI t1 t2).data = .ok (keywordFramesOf t1 t2) := by
  simp only [gatherKeywordFrames, getTable, initCI, pyTruthy, toFrame,
    keywordFramesOf, DataFrame.isEmpty]
  by_cases h1 : t1.rows.isEmpty <;> by_cases h1c : t1.cols.isEmpty <;>
    by_cases h2 : t2.rows.isEmpty <;> by_cases h2c : t2.cols.isEmpty <;>
      simp [h1, h1c, h2, h2c, Bind.bind, Except.bind, pure, Except.pure]

theorem identify_init (t1 t2 : DataFrame) :
    identify_competitors_from_keywords (initCI t1 t2) =
      .ok (identify_core (keywordFramesOf t1 t2) (initCI t1 t2)) := by
  unfold identify_competitors_from_keywords
  rw [gather_init]
  rfl

theorem cellPos_getD {v : Option Cell} (h : cellPos v = true) :
    0 < (cellNum v).getD 0 := by
  cases v with
  | none => simp [cellPos] at h
  | some cv =>
      cases cv with
      | num q => simpa [cellPos, cellNum] using h
      | str s => simp [cellPos] at h

theorem colSumRows_nonneg {rs : List Row} {c : String}
    (h : ∀ r ∈ rs, cellPos (r c) = true) : 0 ≤ colSumRows rs c := by
  induction rs with
  | nil => simp [colSumRows]
  | cons r rs ih =>
      have hr := cellPos_getD (h r (List.mem_cons_self r rs))
      have hrest := ih (fun x hx => h x (List.mem_cons_of_mem r hx))
      unfold colSumRows at hrest ⊢
      simp only [List.foldr_cons]
      linarith

theorem colSumRows_pos {rs : List Row} {c : String} (hne : rs ≠ [])
    (h : ∀ r ∈ rs, cellPos (r c) = true) : 0 < colSumRows rs c := by
  cases rs with
  | nil => exact absurd rfl hne
  | cons r rs =>
      have hr := cellPos_getD (h r (List.mem_cons_self r rs))
      have hrest := colSumRows_nonneg (fun x hx => h x (List.mem_cons_of_mem r hx))
      unfold colSumRows at hrest ⊢
      simp only [List.foldr_cons]
      linarith

theorem overlap_pct_bounds (t : DataFrame) (primary c : String) :
    0 ≤ overlap_pct_of t primary c ∧ overlap_pct_of t primary c ≤ 100 := by
  unfold overlap_pct_of
  split_ifs with h
  · have hn : (0:ℚ) < (t.rows.length : ℚ) := by exact_mod_cast h
    have hle : ((bothPresentRows t primary c).length : ℚ) ≤ (t.rows.length : ℚ) := by
      exact_mod_cast List.length_filter_le _ _
    constructor
    · positivity
    · rw [div_mul_eq_mul_div, div_le_iff₀ hn]
      linarith
  · norm_num

theorem bothPresent_pos_left {t : DataFrame} {primary c : String} {r : Row}
    (hr : r ∈ bothPresentRows t primary c) : cellPos (r primary) = true := by
  have := List.of_mem_filter hr
  exact (Bool.and_eq_true _ _ |>.mp this).1

theorem bothPresent_pos_right {t : DataFrame} {primary c : String} {r : Row}
    (hr : r ∈ bothPresentRows t primary c) : cellPos (r c) = true := by
  have := List.of_mem_filter hr
  exact (Bool.and_eq_true _ _ |>.mp this).2

theorem traffic_share_bounds (t : DataFrame) (primary c : String) :
    0 ≤ traffic_share_of t primary c ∧ traffic_share_of t primary c ≤ 100 := by
  unfold traffic_share_of
  dsimp only
  split_ifs with h1 h2
  · norm_num
  · have hne : bothPresentRows t primary c ≠ [] := by
      intro hnil
      rw [hnil] at h1
      simp at h1
    have hpt : 0 < colSumRows (bothPresentRows t primary c) primary :=
      colSumRows_pos hne (fun r hr => bothPresent_pos_left hr)
    have hct : 0 < colSumRows (bothPresentRows t primary c) c :=
      colSumRows_pos hne (fun r hr => bothPresent_pos_right hr)
    constructor
    · positivity
    · rw [div_mul_eq_mul_div, div_le_iff₀ (by linarith)]
      linarith
  · norm_num

theorem round1_bounds {x : ℚ} (h0 : 0 ≤ x) (h1 : x ≤ 100) :
    0 ≤ round1 x ∧ round1 x ≤ 100 :=
  ⟨round1_zero ▸ round1_mono h0, round1_hundred ▸ round1_mono h1⟩

theorem competitorInfoOf_bounds (t : DataFrame) (primary c : String) :
    0 ≤ (competitorInfoOf t primary c).keyword_overlap_pct ∧
    (competitorInfoOf t primary c).keyword_overlap_pct ≤ 100 ∧
    0 ≤ (competitorInfoOf t primary c).traffic_share_on_overlap ∧
    (competitorInfoOf t primary c).traffic_share_on_overlap ≤ 100 := by
  have hp := overlap_pct_bounds t primary c
  have hs := traffic_share_bounds t primary c
  have h1 := round1_bounds hp.1 hp.2
  have h2 := round1_bounds hs.1 hs.2
  exact ⟨h1.1, h1.2, h2.1, h2.2⟩

theorem concat_nil_cols : (concatDF []).cols = [] := rfl

/-- The conclusions C4 asserts about the competitor list. -/
def c4Prop (t1 t2 : DataFrame) : Prop :=
  ∀ res s', identify_competitors_from_keywords (initCI t1 t2) = .ok (res, s') →
    res = sortDescBy (fun ci => ci.competitive_intensity) (ciBaseCompetitors t1 t2) ∧
    List.Sorted (fun a b => b.competitive_intensity ≤ a.competitive_intensity) res ∧
    (∀ v : ℚ, res.filter (fun ci => decide (ci.competitive_intensity = v)) =
      (ciBaseCompetitors t1 t2).filter
        (fun ci => decide (ci.competitive_intensity = v))) ∧
    (∀ ci ∈ res, 0 ≤ ci.keyword_overlap_pct ∧ ci.keyword_overlap_pct ≤ 100 ∧
      0 ≤ ci.traffic_share_on_overlap ∧ ci.traffic_share_on_overlap ≤ 100)

/-- C4: on every pair of keyword tables with at least one domain column
besides the primary, `identify_competitors_from_keywords` returns the
discovery-order competitor profiles stably sorted by
competitive_intensity descending (ties keep discovery order), and every
keyword_overlap_pct and traffic_share_on_overlap lies in [0,100]. -/
theorem c4_identify_sorted_bounded (t1 t2 : DataFrame)
    (h : competitorCols (ciCombined t1 t2) (ciPrimary t1 t2) ≠ []) :
    c4Prop t1 t2 := by
  intro res s' hres
  rw [identify_init] at hres
  simp only [Except.ok.injEq] at hres
  have hf : (keywordFramesOf t1 t2).isEmpty = false := by
    cases hk : keywordFramesOf t1 t2 with
    | nil =>
        exfalso
        apply h
        unfold ciCombined
        rw [hk]
        unfold competitorCols
        rw [concat_nil_cols]
        rfl
    | cons a l => rfl
  unfold identify_core at hres
  rw [hf] at hres
  simp only [Bool.false_eq_true, if_false] at hres
  have hres2 : res = sortDescBy (fun ci => ci.competitive_intensity)
      (ciBaseCompetitors t1 t2) := by
    have := congrArg Prod.fst hres.symm
    exact this
  refine ⟨hres2, ?_, ?_, ?_⟩
  · rw [hres2]
    exact sortDescBy_sorted _ _
  · intro v
    rw [hres2]
    exact sortDescBy_stable_filter _ v _
  · intro ci hci
    rw [hres2] at hci
    have hmem : ci ∈ ciBaseCompetitors t1 t2 := mem_sortDescBy.mp hci
    unfold ciBaseCompetitors at hmem
    obtain ⟨col, _, hcol⟩ := List.mem_map.mp hmem
    rw [← hcol]
    exact competitorInfoOf_bounds _ _ _

theorem wt_primary : ciPrimary wt1 wt2 = "p.com" := by
  have h1 : primaryCandidateCols (ciCombined wt1 wt2) = ["p.com", "a.com"] := by
    simp [primaryCandidateCols, ciCombined, keywordFramesOf, wt1, wt2,
      DataFrame.isEmpty, concatDF, unionCols, isPrimaryCandidate, strHasChar,
      strContainsSub, listInfixOf, listPrefixOf, String.toList, List.filter]
  unfold ciPrimary identify_primary_company
  rw [h1]
  simp only [maxBySumFrom]
  simp [colSumRows, cellNum, ciCombined, keywordFramesOf, wt1, wt2,
    DataFrame.isEmpty, concatDF, unionCols, restrictRow, wRowA]
  norm_num

theorem wt_competitors : competitorCols (ciCombined wt1 wt2) (ciPrimary wt1 wt2) =
    ["a.com"] := by
  rw [wt_primary]
  simp [competitorCols, ciCombined, keywordFramesOf, wt1, wt2, DataFrame.isEmpty,
    concatDF, unionCols, strHasChar, strContainsSub, listInfixOf, listPrefixOf,
    String.toList, List.filter]

theorem c4_witness : c4Prop wt1 wt2 :=
  c4_identify_sorted_bounded wt1 wt2 (by rw [wt_competitors]; simp)

theorem typed_init (t1 t2 : DataFrame) :
    gatherTypedFrames (initCI t1 t2).data = .ok (typedFramesOf t1 t2) := by
  simp only [gatherTypedFrames, getTable, initCI, pyTruthy, toFrame,
    typedFramesOf, DataFrame.isEmpty]
  by_cases h1 : t1.rows.isEmpty <;> by_cases h1c : t1.cols.isEmpty <;>
    by_cases h2 : t2.rows.isEmpty <;> by_cases h2c : t2.cols.isEmpty <;>
      simp [h1, h1c, h2, h2c, Bind.bind, Except.bind, pure, Except.pure]

theorem mem_unionCols {c : String} :
    ∀ (l acc : List String), c ∈ unionCols acc l ↔ c ∈ acc ∨ c ∈ l := by
  intro l
  induction l with
  | nil => intro acc; simp [unionCols]
  | cons x xs ih =>
      intro acc
      unfold unionCols
      rw [ih]
      by_cases hx : x ∈ acc
      · rw [if_pos hx]
        constructor
        · rintro (h | h)
          · exact Or.inl h
          · exact Or.inr (List.mem_cons_of_mem x h)
        · rintro (h | h)
          · exact Or.inl h
          · rcases List.mem_cons.mp h with h | h
            · exact Or.inl (h ▸ hx)
            · exact Or.inr h
      · rw [if_neg hx]
        simp only [List.mem_append, List.mem_singleton, List.mem_cons]
        tauto

theorem mem_concat_cols {c : String} (ts : List DataFrame) :
    c ∈ (concatDF ts).cols ↔ ∃ t ∈ ts, c ∈ t.cols := by
  have haux : ∀ (l : List DataFrame) (acc : List String),
      c ∈ l.foldl (fun acc t => unionCols acc t.cols) acc ↔
        c ∈ acc ∨ ∃ t ∈ l, c ∈ t.cols := by
    intro l
    induction l with
    | nil => intro acc; simp
    | cons x xs ih =>
        intro acc
        simp only [List.foldl_cons]
        rw [ih, mem_unionCols]
        simp only [List.mem_cons]
        constructor
        · rintro ((h | h) | ⟨t, ht, hc⟩)
          · exact Or.inl h
          · exact Or.inr ⟨x, Or.inl rfl, h⟩
          · exact Or.inr ⟨t, Or.inr ht, hc⟩
        · rintro (h | ⟨t, ht | ht, hc⟩)
          · exact Or.inl (Or.inl h)
          · exact Or.inl (Or.inr (ht ▸ hc))
          · exact Or.inr ⟨t, ht, hc⟩
  have := haux ts []
  simp only [List.not_mem_nil, false_or] at this
  exact this

theorem mem_setTypeCol_cols {c : String} {t : DataFrame} {v : String} :
    c ∈ (setTypeCol t v).cols ↔ c ∈ t.cols ∨ c = "Type" := by
  unfold setTypeCol
  dsimp only
  split_ifs with h
  · constructor
    · exact fun hc => Or.inl hc
    · rintro (hc | rfl)
      · exact hc
      · exact h
  · simp only [List.mem_append, List.mem_singleton]

theorem gapEntriesFor_no_volume {combined : DataFrame} {p : String}
    {comp : CompetitorInfo} (hsv : "Search Volume" ∉ combined.cols) :
    gapEntriesFor combined p comp = [] := by
  unfold gapEntriesFor
  dsimp only
  split_ifs with h1 h2
  · exact absurd h2.2 hsv
  · rfl
  · rfl

theorem foldr_append_eq_nil {α β : Type} (l : List α) (f : α → List β)
    (h : ∀ x ∈ l, f x = []) : (l.map f).foldr (· ++ ·) [] = [] := by
  induction l with
  | nil => rfl
  | cons x xs ih =>
      simp only [List.map_cons, List.foldr_cons]
      rw [h x (List.mem_cons_self x xs), ih (fun y hy => h y (List.mem_cons_of_mem x hy))]
      rfl

/-- C10: when neither keyword table has a 'Search Volume' column,
`analyze_keyword_gaps` returns the empty list (the per-competitor
emission is guarded on that column), even if gap rows exist. -/
theorem c10_no_volume_no_gaps (t1 t2 : DataFrame)
    (h1 : "Search Volume" ∉ t1.cols) (h2 : "Search Volume" ∉ t2.cols) :
    ∀ res s', analyze_keyword_gaps (initCI t1 t2) = .ok (res, s') → res = [] := by
  intro res s' hres
  unfold analyze_keyword_gaps at hres
  cases he : ensureCompetitors (initCI t1 t2) with
  | error e => rw [he] at hres; exact absurd hres (by simp [Bind.bind, Except.bind])
  | ok s1 =>
      rw [he] at hres
      simp only [Bind.bind, Except.bind] at hres
      have hdata : s1.data = (initCI t1 t2).data := ensureCompetitors_data he
      unfold analyze_core at hres
      rw [hdata, typed_init] at hres
      simp only [Except.map, Except.ok.injEq] at hres
      by_cases hf : (typedFramesOf t1 t2).isEmpty
      · rw [if_pos hf] at hres
        exact (congrArg Prod.fst hres).symm
      · rw [if_neg hf] at hres
        have hsv : "Search Volume" ∉ (concatDF (typedFramesOf t1 t2)).cols := by
          rw [mem_concat_cols]
          rintro ⟨t, ht, hc⟩
          unfold typedFramesOf at ht
          rw [List.mem_append] at ht
          have hcase : t = setTypeCol t1 "Paid" ∨ t = setTypeCol t2 "Organic" := by
            rcases ht with ht | ht <;> split_ifs at ht
            · exact absurd ht (List.not_mem_nil t)
            · exact Or.inl (List.mem_singleton.mp ht)
            · exact absurd ht (List.not_mem_nil t)
            · exact Or.inr (List.mem_singleton.mp ht)
          rcases hcase with rfl | rfl
          · rcases mem_setTypeCol_cols.mp hc with hc2 | hc2
            · exact h1 hc2
            · exact absurd hc2 (by simp)
          · rcases mem_setTypeCol_cols.mp hc with hc2 | hc2
            · exact h2 hc2
            · exact absurd hc2 (by simp)
        have hentries : (((s1.competitors.take 5).map (fun comp =>
            match s1.primary_company with
            | some p => gapEntriesFor (concatDF (typedFramesOf t1 t2)) p comp
            | none => [])).foldr (· ++ ·) []) = [] := by
          apply foldr_append_eq_nil
          intro comp _
          cases s1.primary_company with
          | none => rfl
          | some p => exact gapEntriesFor_no_volume hsv
        rw [hentries] at hres
        exact (congrArg Prod.fst hres).symm

/-- A keyword table with no Search Volume column but a genuine gap row
(primary 0, competitor positive). -/
def wRowNoSV (p a : ℚ) : Row := fun c =>
  if c = "p.com" then some (.num p)
  else if c = "a.com" then some (.num a)
  else none

def wtNoSV1 : DataFrame :=
  ⟨["p.com", "a.com"], [wRowNoSV 5 3, wRowNoSV 0 2]⟩

def wtNoSV2 : DataFrame := ⟨[], []⟩


theorem keywordFrames_ne_of_pc {t1 t2 : DataFrame}
    (hpc : primaryCandidateCols (ciCombined t1 t2) ≠ []) :
    (keywordFramesOf t1 t2).isEmpty = false := by
  cases hk : keywordFramesOf t1 t2 with
  | nil =>
      exfalso
      apply hpc
      unfold ciCombined
      rw [hk]
      unfold primaryCandidateCols
      rw [concat_nil_cols]
      rfl
  | cons a l => rfl

theorem primary_assigned {t1 t2 : DataFrame}
    (hpc : primaryCandidateCols (ciCombined t1 t2) ≠ []) :
    identify_primary_company (ciCombined t1 t2) = (ciPrimary t1 t2, true) := by
  unfold ciPrimary identify_primary_company
  cases hm : primaryCandidateCols (ciCombined t1 t2) with
  | nil => exact absurd hm hpc
  | cons c cs => rfl

theorem ensure_init (t1 t2 : DataFrame)
    (hpc : primaryCandidateCols (ciCombined t1 t2) ≠ []) :
    ensureCompetitors (initCI t1 t2) = .ok (ciState1 t1 t2) := by
  unfold ensureCompetitors
  rw [if_pos (show (initCI t1 t2).competitors.isEmpty = true from rfl)]
  rw [identify_init]
  simp only [Except.map, Except.ok.injEq]
  unfold identify_core
  rw [show concatDF (keywordFramesOf t1 t2) = ciCombined t1 t2 from rfl]
  rw [keywordFrames_ne_of_pc hpc]
  simp only [primary_assigned hpc, Bool.false_eq_true, if_false, if_true]
  rfl

theorem typedFrames_isEmpty_eq (t1 t2 : DataFrame) :
    (typedFramesOf t1 t2).isEmpty = (keywordFramesOf t1 t2).isEmpty := by
  unfold typedFramesOf keywordFramesOf
  by_cases h1 : t1.isEmpty <;> by_cases h2 : t2.isEmpty <;> simp [h1, h2]

theorem analyze_core_state1 (t1 t2 : DataFrame)
    (hpc : primaryCandidateCols (ciCombined t1 t2) ≠ []) :
    analyze_core (ciState1 t1 t2) =
      .ok ((ciAllGaps t1 t2).take 20, ciState2 t1 t2) := by
  unfold analyze_core
  rw [show (ciState1 t1 t2).data = (initCI t1 t2).data from rfl, typed_init]
  simp only [Except.map, Except.ok.injEq]
  rw [typedFrames_isEmpty_eq, keywordFrames_ne_of_pc hpc]
  simp only [Bool.false_eq_true, if_false]
  rfl

theorem analyze_init (t1 t2 : DataFrame)
    (hpc : primaryCandidateCols (ciCombined t1 t2) ≠ []) :
    analyze_keyword_gaps (initCI t1 t2) =
      .ok ((ciAllGaps t1 t2).take 20, ciState2 t1 t2) := by
  unfold analyze_keyword_gaps
  rw [ensure_init t1 t2 hpc]
  simp only [Bind.bind, Except.bind]
  exact analyze_core_state1 t1 t2 hpc

theorem ensure_state1 (t1 t2 : DataFrame)
    (hpc : primaryCandidateCols (ciCombined t1 t2) ≠ []) :
    ensureCompetitors (ciState1 t1 t2) = .ok (ciState1 t1 t2) := by
  unfold ensureCompetitors
  by_cases hc : (ciState1 t1 t2).competitors.isEmpty
  · rw [if_pos hc]
    unfold identify_competitors_from_keywords
    rw [show (ciState1 t1 t2).data = (initCI t1 t2).data from rfl, gather_init]
    simp only [Except.map, Except.ok.injEq]
    unfold identify_core
    rw [show concatDF (keywordFramesOf t1 t2) = ciCombined t1 t2 from rfl]
    rw [keywordFrames_ne_of_pc hpc]
    simp only [primary_assigned hpc, Bool.false_eq_true, if_false, if_true]
    rfl
  · rw [if_neg hc]
    rfl

theorem analyze_state1 (t1 t2 : DataFrame)
    (hpc : primaryCandidateCols (ciCombined t1 t2) ≠ []) :
    analyze_keyword_gaps (ciState1 t1 t2) =
      .ok ((ciAllGaps t1 t2).take 20, ciState2 t1 t2) := by
  unfold analyze_keyword_gaps
  rw [ensure_state1 t1 t2 hpc]
  simp only [Bind.bind, Except.bind]
  exact analyze_core_state1 t1 t2 hpc

theorem summary_init (t1 t2 : DataFrame)
    (hpc : primaryCandidateCols (ciCombined t1 t2) ≠ []) :
    get_competitive_summary (initCI t1 t2) =
      .ok (summary_out (ciState2 t1 t2), ciState2 t1 t2) := by
  unfold get_competitive_summary
  rw [ensure_init t1 t2 hpc]
  simp only [Bind.bind, Except.bind]
  unfold ensureGaps
  rw [if_pos (show (ciState1 t1 t2).competitive_gaps.isEmpty = true from rfl)]
  rw [analyze_state1 t1 t2 hpc]
  rfl

/-- C6 (amended): the summary's total gap count and total gap potential
volume range over the full stored gap list — every entry collected for
the top-5 competitors before truncation — while `analyze_keyword_gaps`
returns only the first 20 entries of that list; the claimed totals over
the retained top-20 hold only when at most 20 entries were collected. -/
theorem c6_summary_totals_amended (t1 t2 : DataFrame)
    (hpc : primaryCandidateCols (ciCombined t1 t2) ≠ []) :
    ∀ smry s2 res sa, get_competitive_summary (initCI t1 t2) = .ok (smry, s2) →
      analyze_keyword_gaps (initCI t1 t2) = .ok (res, sa) →
      smry.total_keyword_gaps = sa.competitive_gaps.length ∧
      smry.total_gap_potential_volume =
        pySumCells (sa.competitive_gaps.map (fun g => g.search_volume)) ∧
      res = sa.competitive_gaps.take 20 := by
  intro smry s2 res sa h1 h2
  rw [summary_init t1 t2 hpc] at h1
  rw [analyze_init t1 t2 hpc] at h2
  simp only [Except.ok.injEq, Prod.mk.injEq] at h1 h2
  obtain ⟨hs, hs2⟩ := h1
  obtain ⟨hr, hsa⟩ := h2
  rw [← hs, ← hr, ← hsa]
  exact ⟨rfl, rfl, rfl⟩

theorem wt_pc : primaryCandidateCols (ciCombined wt1 wt2) = ["p.com", "a.com"] := by
  simp [primaryCandidateCols, ciCombined, keywordFramesOf, wt1, wt2,
    DataFrame.isEmpty, concatDF, unionCols, isPrimaryCandidate, strHasChar,
    strContainsSub, listInfixOf, listPrefixOf, String.toList, List.filter]

theorem c6_witness :
    (summary_out (ciState2 wt1 wt2)).total_keyword_gaps =
        (ciState2 wt1 wt2).competitive_gaps.length ∧
    (summary_out (ciState2 wt1 wt2)).total_gap_potential_volume =
      pySumCells ((ciState2 wt1 wt2).competitive_gaps.map (fun g => g.search_volume)) ∧
    (ciAllGaps wt1 wt2).take 20 = (ciState2 wt1 wt2).competitive_gaps.take 20 :=
  c6_summary_totals_amended wt1 wt2 (by rw [wt_pc]; simp)
    (summary_out (ciState2 wt1 wt2)) (ciState2 wt1 wt2)
    ((ciAllGaps wt1 wt2).take 20) (ciState2 wt1 wt2)
    (summary_init wt1 wt2 (by rw [wt_pc]; simp))
    (analyze_init wt1 wt2 (by rw [wt_pc]; simp))

theorem length_sortDescBy {α K : Type} [LinearOrder K] (key : α → K)
    (l : List α) : (sortDescBy key l).length = l.length :=
  (sortDescBy_perm key l).length_eq

theorem length_foldr_append {α β : Type} (l : List α) (f : α → List β) :
    ((l.map f).foldr (· ++ ·) []).length = (l.map (fun x => (f x).length)).sum := by
  induction l with
  | nil => rfl
  | cons x xs ih =>
      simp only [List.map_cons, List.foldr_cons, List.length_append, ih, List.sum_cons]

theorem gapEntriesFor_length {combined : DataFrame} {p : String}
    {comp : CompetitorInfo} (hd : comp.domain ∈ combined.cols)
    (hp : p ∈ combined.cols) (hsv : "Search Volume" ∈ combined.cols) :
    (gapEntriesFor combined p comp).length =
      min 10 (gapRows combined p comp.domain).length := by
  unfold gapEntriesFor
  dsimp only
  rw [if_pos ⟨hd, hp⟩]
  by_cases hg : (gapRows combined p comp.domain).isEmpty
  · rw [if_neg (fun hh => hh.1 hg)]
    have : gapRows combined p comp.domain = [] := by
      cases hgr : gapRows combined p comp.domain
      · rfl
      · rw [hgr] at hg; simp at hg
    rw [this]
    rfl
  · rw [if_pos ⟨hg, hsv⟩]
    rw [List.length_map, List.length_take, length_sortDescBy]

theorem ce_pc : primaryCandidateCols (ciCombined ce1 ce2) =
    ["P.com", "a.com", "b.com", "c.com"] := by
  simp [primaryCandidateCols, ciCombined, keywordFramesOf, ce1, ce2,
    DataFrame.isEmpty, concatDF, unionCols, isPrimaryCandidate, strHasChar,
    strContainsSub, listInfixOf, listPrefixOf, String.toList, List.filter]

theorem ce_sum_P : colSumRows (ciCombined ce1 ce2).rows "P.com" = 100 := by
  simp [colSumRows, cellNum, ciCombined, keywordFramesOf, ce1, ce2,
    DataFrame.isEmpty, concatDF, restrictRow, ceRow]

theorem ce_sum_a : colSumRows (ciCombined ce1 ce2).rows "a.com" = 10 := by
  simp [colSumRows, cellNum, ciCombined, keywordFramesOf, ce1, ce2,
    DataFrame.isEmpty, concatDF, restrictRow, ceRow]
  norm_num

theorem ce_sum_b : colSumRows (ciCombined ce1 ce2).rows "b.com" = 10 := by
  simp [colSumRows, cellNum, ciCombined, keywordFramesOf, ce1, ce2,
    DataFrame.isEmpty, concatDF, restrictRow, ceRow]
  norm_num

theorem ce_sum_c : colSumRows (ciCombined ce1 ce2).rows "c.com" = 1 := by
  simp [colSumRows, cellNum, ciCombined, keywordFramesOf, ce1, ce2,
    DataFrame.isEmpty, concatDF, restrictRow, ceRow]

theorem ce_primary : ciPrimary ce1 ce2 = "P.com" := by
  unfold ciPrimary identify_primary_company
  rw [ce_pc]
  show maxBySumFrom (ciCombined ce1 ce2) "P.com" ["a.com", "b.com", "c.com"] = "P.com"
  rw [maxBySumFrom, ce_sum_P, ce_sum_a]
  norm_num
  rw [maxBySumFrom, ce_sum_P, ce_sum_b]
  norm_num
  rw [maxBySumFrom, ce_sum_P, ce_sum_c]
  norm_num
  rfl

theorem ce_comb_cols : (gapsCombined ce1 ce2).cols =
    ["Search Volume", "P.com", "a.com", "b.com", "c.com", "Type"] := by
  simp [gapsCombined, typedFramesOf, setTypeCol, ce1, ce2, DataFrame.isEmpty,
    concatDF, unionCols]

theorem ce_competitorCols :
    competitorCols (ciCombined ce1 ce2) (ciPrimary ce1 ce2) =
      ["a.com", "b.com", "c.com"] := by
  rw [ce_primary]
  simp [competitorCols, ciCombined, keywordFramesOf, ce1, ce2, DataFrame.isEmpty,
    concatDF, unionCols, strHasChar, strContainsSub, listInfixOf, listPrefixOf,
    String.toList, List.filter]

theorem ce_gaps_a : (gapRows (gapsCombined ce1 ce2) "P.com" "a.com").length = 10 := by
  simp [gapRows, isGapRow, cellIsZero, cellPos, gapsCombined, typedFramesOf,
    setTypeCol, concatDF, restrictRow, ceRow, ce1, ce2, DataFrame.isEmpty,
    List.filter]

theorem ce_gaps_b : (gapRows (gapsCombined ce1 ce2) "P.com" "b.com").length = 10 := by
  simp [gapRows, isGapRow, cellIsZero, cellPos, gapsCombined, typedFramesOf,
    setTypeCol, concatDF, restrictRow, ceRow, ce1, ce2, DataFrame.isEmpty,
    List.filter]

theorem ce_gaps_c : (gapRows (gapsCombined ce1 ce2) "P.com" "c.com").length = 1 := by
  simp [gapRows, isGapRow, cellIsZero, cellPos, gapsCombined, typedFramesOf,
    setTypeCol, concatDF, restrictRow, ceRow, ce1, ce2, DataFrame.isEmpty,
    List.filter]

theorem ce_hpc : primaryCandidateCols (ciCombined ce1 ce2) ≠ [] := by
  rw [ce_pc]
  simp

theorem ce_allgaps_len : (ciAllGaps ce1 ce2).length = 21 := by
  unfold ciAllGaps
  rw [length_sortDescBy, length_foldr_append]
  have htake : (ciCompetitors ce1 ce2).take 5 = ciCompetitors ce1 ce2 := by
    apply List.take_of_length_le
    unfold ciCompetitors
    rw [length_sortDescBy]
    unfold ciBaseCompetitors
    rw [List.length_map, ce_competitorCols]
    simp
  rw [htake]
  have hperm : List.Perm
      ((ciCompetitors ce1 ce2).map (fun comp =>
        (gapEntriesFor (gapsCombined ce1 ce2) (ciPrimary ce1 ce2) comp).length))
      ((ciBaseCompetitors ce1 ce2).map (fun comp =>
        (gapEntriesFor (gapsCombined ce1 ce2) (ciPrimary ce1 ce2) comp).length)) :=
    List.Perm.map _ (sortDescBy_perm _ _)
  rw [hperm.sum_eq]
  unfold ciBaseCompetitors
  rw [ce_competitorCols]
  simp only [List.map_cons, List.map_nil]
  rw [gapEntriesFor_length
        (by
          rw [show (competitorInfoOf (ciCombined ce1 ce2) (ciPrimary ce1 ce2)
            "a.com").domain = "a.com" from rfl, ce_comb_cols]
          simp)
        (by rw [ce_primary, ce_comb_cols]; simp)
        (by rw [ce_comb_cols]; simp),
      gapEntriesFor_length
        (by
          rw [show (competitorInfoOf (ciCombined ce1 ce2) (ciPrimary ce1 ce2)
            "b.com").domain = "b.com" from rfl, ce_comb_cols]
          simp)
        (by rw [ce_primary, ce_comb_cols]; simp)
        (by rw [ce_comb_cols]; simp),
      gapEntriesFor_length
        (by
          rw [show (competitorInfoOf (ciCombined ce1 ce2) (ciPrimary ce1 ce2)
            "c.com").domain = "c.com" from rfl, ce_comb_cols]
          simp)
        (by rw [ce_primary, ce_comb_cols]; simp)
        (by rw [ce_comb_cols]; simp)]
  rw [show (competitorInfoOf (ciCombined ce1 ce2) (ciPrimary ce1 ce2) "a.com").domain
      = "a.com" from rfl,
    show (competitorInfoOf (ciCombined ce1 ce2) (ciPrimary ce1 ce2) "b.com").domain
      = "b.com" from rfl,
    show (competitorInfoOf (ciCombined ce1 ce2) (ciPrimary ce1 ce2) "c.com").domain
      = "c.com" from rfl]
  rw [ce_primary, ce_gaps_a, ce_gaps_b, ce_gaps_c]
  rfl

/-- C6 (counterexample): on a keyword table producing 21 gap entries,
`get_competitive_summary` reports a total gap count of 21 while
`analyze_keyword_gaps` retains only 20 entries — the summary totals
range over the full stored list, not the retained top-20 the claim
describes. -/
theorem c6_counterexample :
    (get_competitive_summary (initCI ce1 ce2)).map
        (fun p => p.1.total_keyword_gaps) = .ok 21 ∧
    (analyze_keyword_gaps (initCI ce1 ce2)).map
        (fun p => p.1.length) = .ok 20 := by
  rw [summary_init ce1 ce2 ce_hpc, analyze_init ce1 ce2 ce_hpc]
  simp only [Except.map]
  constructor
  · show Except.ok ((ciState2 ce1 ce2).competitive_gaps.length) = Except.ok 21
    rw [show (ciState2 ce1 ce2).competitive_gaps = ciAllGaps ce1 ce2 from rfl,
      ce_allgaps_len]
  · show Except.ok (((ciAllGaps ce1 ce2).take 20).length) = Except.ok 20
    rw [List.length_take, ce_allgaps_len]
    norm_num

theorem mem_keywordFramesOf {t t1 t2 : DataFrame} :
    t ∈ keywordFramesOf t1 t2 ↔
      (t = t1 ∧ t1.isEmpty = false) ∨ (t = t2 ∧ t2.isEmpty = false) := by
  unfold keywordFramesOf
  by_cases h1 : t1.isEmpty <;> by_cases h2 : t2.isEmpty <;> simp [h1, h2]

theorem mem_typedFramesOf {t t1 t2 : DataFrame} :
    t ∈ typedFramesOf t1 t2 ↔
      (t = setTypeCol t1 "Paid" ∧ t1.isEmpty = false) ∨
      (t = setTypeCol t2 "Organic" ∧ t2.isEmpty = false) := by
  unfold typedFramesOf
  by_cases h1 : t1.isEmpty <;> by_cases h2 : t2.isEmpty <;> simp [h1, h2]

theorem mem_cols_gapsCombined {c : String} {t1 t2 : DataFrame}
    (h : c ∈ (ciCombined t1 t2).cols) : c ∈ (gapsCombined t1 t2).cols := by
  unfold ciCombined at h
  unfold gapsCombined
  obtain ⟨t, ht, hc⟩ := (mem_concat_cols _).mp h
  rcases mem_keywordFramesOf.mp ht with ⟨rfl, hne⟩ | ⟨rfl, hne⟩
  · exact (mem_concat_cols _).mpr ⟨setTypeCol t "Paid",
      mem_typedFramesOf.mpr (Or.inl ⟨rfl, hne⟩), mem_setTypeCol_cols.mpr (Or.inl hc)⟩
  · exact (mem_concat_cols _).mpr ⟨setTypeCol t "Organic",
      mem_typedFramesOf.mpr (Or.inr ⟨rfl, hne⟩), mem_setTypeCol_cols.mpr (Or.inl hc)⟩

theorem maxBySumFrom_mem (t : DataFrame) :
    ∀ (cs : List String) (best : String), maxBySumFrom t best cs ∈ best :: cs := by
  intro cs
  induction cs with
  | nil => intro best; simp [maxBySumFrom]
  | cons c cs ih =>
      intro best
      rw [maxBySumFrom]
      split_ifs with hx
      · rcases List.mem_cons.mp (ih c) with h | h
        · rw [h]
          exact List.mem_cons_of_mem _ (List.mem_cons_self _ _)
        · exact List.mem_cons_of_mem _ (List.mem_cons_of_mem _ h)
      · rcases List.mem_cons.mp (ih best) with h | h
        · rw [h]
          exact List.mem_cons_self _ _
        · exact List.mem_cons_of_mem _ (List.mem_cons_of_mem _ h)

theorem ciPrimary_mem {t1 t2 : DataFrame}
    (hpc : primaryCandidateCols (ciCombined t1 t2) ≠ []) :
    ciPrimary t1 t2 ∈ (ciCombined t1 t2).cols := by
  unfold ciPrimary identify_primary_company
  cases hm : primaryCandidateCols (ciCombined t1 t2) with
  | nil => exact absurd hm hpc
  | cons c cs =>
      show maxBySumFrom (ciCombined t1 t2) c cs ∈ _
      have h2 := maxBySumFrom_mem (ciCombined t1 t2) cs c
      have hsub : c :: cs ⊆ (ciCombined t1 t2).cols := by
        rw [← hm]
        unfold primaryCandidateCols
        exact (List.filter_sublist _).subset
      exact hsub h2

theorem frames_nonempty_case {t1 t2 : DataFrame}
    (hpc : primaryCandidateCols (ciCombined t1 t2) ≠ []) :
    t1.isEmpty = false ∨ t2.isEmpty = false := by
  have h := keywordFrames_ne_of_pc hpc
  by_cases h1 : t1.isEmpty
  · by_cases h2 : t2.isEmpty
    · exfalso
      unfold keywordFramesOf at h
      rw [h1, h2] at h
      simp at h
    · exact Or.inr (by simp [h2])
  · exact Or.inl (by simp [h1])

theorem sv_mem_gapsCombined {t1 t2 : DataFrame}
    (hpc : primaryCandidateCols (ciCombined t1 t2) ≠ [])
    (hv1 : t1.isEmpty = false → cleanVolumes t1)
    (hv2 : t2.isEmpty = false → cleanVolumes t2) :
    "Search Volume" ∈ (gapsCombined t1 t2).cols := by
  unfold gapsCombined
  rcases frames_nonempty_case hpc with h | h
  · exact (mem_concat_cols _).mpr ⟨setTypeCol t1 "Paid",
      mem_typedFramesOf.mpr (Or.inl ⟨rfl, h⟩),
      mem_setTypeCol_cols.mpr (Or.inl (hv1 h).1)⟩
  · exact (mem_concat_cols _).mpr ⟨setTypeCol t2 "Organic",
      mem_typedFramesOf.mpr (Or.inr ⟨rfl, h⟩),
      mem_setTypeCol_cols.mpr (Or.inl (hv2 h).1)⟩

theorem mem_stackRows {r : Row} : ∀ (ts : List DataFrame),
    (r ∈ ts.foldr (fun t acc => t.rows.map (restrictRow t.cols) ++ acc) [] ↔
      ∃ t ∈ ts, ∃ r0 ∈ t.rows, r = restrictRow t.cols r0) := by
  intro ts
  induction ts with
  | nil => simp
  | cons t ts ih =>
      simp only [List.foldr_cons, List.mem_append, List.mem_map]
      rw [ih]
      constructor
      · rintro (⟨r0, hr0, rfl⟩ | ⟨t', ht', r0, hr0, rfl⟩)
        · exact ⟨t, List.mem_cons_self _ _, r0, hr0, rfl⟩
        · exact ⟨t', List.mem_cons_of_mem _ ht', r0, hr0, rfl⟩
      · rintro ⟨t', ht', r0, hr0, rfl⟩
        rcases List.mem_cons.mp ht' with rfl | ht'
        · exact Or.inl ⟨r0, hr0, rfl⟩
        · exact Or.inr ⟨t', ht', r0, hr0, rfl⟩

theorem mem_concat_rows {r : Row} (ts : List DataFrame) :
    r ∈ (concatDF ts).rows ↔ ∃ t ∈ ts, ∃ r0 ∈ t.rows, r = restrictRow t.cols r0 :=
  mem_stackRows ts

theorem rows_volume_clean {t1 t2 : DataFrame}
    (hv1 : t1.isEmpty = false → cleanVolumes t1)
    (hv2 : t2.isEmpty = false → cleanVolumes t2) :
    ∀ r ∈ (gapsCombined t1 t2).rows, (cellNum (r "Search Volume")).isSome = true := by
  intro r hr
  obtain ⟨t, ht, r0, hr0, rfl⟩ := (mem_concat_rows _).mp hr
  rcases mem_typedFramesOf.mp ht with ⟨rfl, hne⟩ | ⟨rfl, hne⟩
  · obtain ⟨r1, hr1, rfl⟩ := List.mem_map.mp hr0
    show (cellNum (restrictRow _ _ "Search Volume")).isSome = true
    unfold restrictRow
    rw [if_pos (mem_setTypeCol_cols.mpr (Or.inl (hv1 hne).1))]
    show (cellNum (if "Search Volume" = "Type" then some (.str "Paid")
      else r1 "Search Volume")).isSome = true
    rw [if_neg (by decide)]
    exact (hv1 hne).2 r1 hr1
  · obtain ⟨r1, hr1, rfl⟩ := List.mem_map.mp hr0
    show (cellNum (restrictRow _ _ "Search Volume")).isSome = true
    unfold restrictRow
    rw [if_pos (mem_setTypeCol_cols.mpr (Or.inl (hv2 hne).1))]
    show (cellNum (if "Search Volume" = "Type" then some (.str "Organic")
      else r1 "Search Volume")).isSome = true
    rw [if_neg (by decide)]
    exact (hv2 hne).2 r1 hr1

theorem cellPos_cellNum {v : Option Cell} (h : cellPos v = true) :
    ∃ q, cellNum v = some q ∧ 0 < q := by
  cases v with
  | none => simp [cellPos] at h
  | some cv =>
      cases cv with
      | num q =>
          refine ⟨q, rfl, ?_⟩
          simpa [cellPos] using h
      | str s => simp [cellPos] at h

theorem gapEntriesFor_eq {combined : DataFrame} {p : String} {comp : CompetitorInfo}
    (hd : comp.domain ∈ combined.cols) (hp : p ∈ combined.cols)
    (hsv : "Search Volume" ∈ combined.cols) :
    gapEntriesFor combined p comp =
      ((sortDescBy volKey (gapRows combined p comp.domain)).take 10).map (fun r =>
        { keyword := rowGet combined.cols r "Keyword" (.str "")
          search_volume := rowGet combined.cols r "Search Volume" (.num 0)
          competitor := comp.company_name
          competitor_traffic := rowGet combined.cols r comp.domain (.num 0)
          gap_type := rowGet combined.cols r "Type" (.str "Organic")
          opportunity_score := opportunity_score_of
            (rowGet combined.cols r "Search Volume" (.num 0))
            (rowGet combined.cols r comp.domain (.num 0)) }) := by
  unfold gapEntriesFor
  dsimp only
  rw [if_pos ⟨hd, hp⟩]
  by_cases hg : (gapRows combined p comp.domain).isEmpty
  · rw [if_neg (fun hh => hh.1 hg)]
    have hnil : gapRows combined p comp.domain = [] := by
      cases hgr : gapRows combined p comp.domain
      · rfl
      · rw [hgr] at hg
        simp at hg
    rw [hnil]
    rfl
  · rw [if_pos ⟨hg, hsv⟩]

theorem comp_mem_domain_cols {t1 t2 : DataFrame} {comp : CompetitorInfo}
    (hcomp : comp ∈ (ciCompetitors t1 t2).take 5) :
    comp.domain ∈ (ciCombined t1 t2).cols := by
  have h1 : comp ∈ ciCompetitors t1 t2 := List.take_subset _ _ hcomp
  have h2 : comp ∈ ciBaseCompetitors t1 t2 := mem_sortDescBy.mp h1
  unfold ciBaseCompetitors at h2
  obtain ⟨c, hc, hcol⟩ := List.mem_map.mp h2
  have hcc : c ∈ (ciCombined t1 t2).cols := by
    unfold competitorCols at hc
    exact (List.filter_sublist _).subset hc
  rw [← hcol]
  exact hcc

theorem analyze_eq_spec {t1 t2 : DataFrame}
    (hpc : primaryCandidateCols (ciCombined t1 t2) ≠ [])
    (hv1 : t1.isEmpty = false → cleanVolumes t1)
    (hv2 : t2.isEmpty = false → cleanVolumes t2) :
    (ciAllGaps t1 t2).take 20 =
      spec_keyword_gaps (gapsCombined t1 t2) (ciPrimary t1 t2)
        (ciCompetitors t1 t2) := by
  unfold ciAllGaps spec_keyword_gaps
  have hmap : ((ciCompetitors t1 t2).take 5).map (fun comp =>
      gapEntriesFor (gapsCombined t1 t2) (ciPrimary t1 t2) comp) =
    ((ciCompetitors t1 t2).take 5).map (fun comp =>
      ((sortDescBy volKey (gapRows (gapsCombined t1 t2) (ciPrimary t1 t2)
          comp.domain)).take 10).map (fun r =>
        { keyword := rowGet (gapsCombined t1 t2).cols r "Keyword" (.str "")
          search_volume := rowGet (gapsCombined t1 t2).cols r "Search Volume" (.num 0)
          competitor := comp.company_name
          competitor_traffic := rowGet (gapsCombined t1 t2).cols r comp.domain (.num 0)
          gap_type := rowGet (gapsCombined t1 t2).cols r "Type" (.str "Organic")
          opportunity_score := opportunity_score_of
            (rowGet (gapsCombined t1 t2).cols r "Search Volume" (.num 0))
            (rowGet (gapsCombined t1 t2).cols r comp.domain (.num 0)) })) := by
    apply List.map_congr_left
    intro comp hcomp
    exact gapEntriesFor_eq
      (mem_cols_gapsCombined (comp_mem_domain_cols hcomp))
      (mem_cols_gapsCombined (ciPrimary_mem hpc))
      (sv_mem_gapsCombined hpc hv1 hv2)
  rw [hmap]

theorem mem_foldr_append {α β : Type} {x : β} {l : List α} {f : α → List β} :
    x ∈ (l.map f).foldr (· ++ ·) [] ↔ ∃ a ∈ l, x ∈ f a := by
  induction l with
  | nil => simp
  | cons a l ih =>
      simp only [List.map_cons, List.foldr_cons, List.mem_append, ih, List.mem_cons]
      constructor
      · rintro (h | ⟨a', ha', hx⟩)
        · exact ⟨a, Or.inl rfl, h⟩
        · exact ⟨a', Or.inr ha', hx⟩
      · rintro ⟨a', ha' | ha', hx⟩
        · exact Or.inl (ha' ▸ hx)
        · exact Or.inr ⟨a', ha', hx⟩

theorem mem_gapEntriesFor {combined : DataFrame} {p : String}
    {comp : CompetitorInfo} {e : GapEntry} (he : e ∈ gapEntriesFor combined p comp) :
    ∃ r ∈ gapRows combined p comp.domain,
      e.opportunity_score = opportunity_score_of
        (rowGet combined.cols r "Search Volume" (.num 0))
        (rowGet combined.cols r comp.domain (.num 0)) := by
  unfold gapEntriesFor at he
  dsimp only at he
  split_ifs at he with h1 h2
  · obtain ⟨r, hr, rfl⟩ := List.mem_map.mp he
    exact ⟨r, mem_sortDescBy.mp (List.take_subset _ _ hr), rfl⟩
  · exact absurd he (List.not_mem_nil e)
  · exact absurd he (List.not_mem_nil e)

/-- C5: under an identified primary and clean Search Volume data,
`analyze_keyword_gaps` computes exactly the spec pipeline — per top-5
competitor the gap rows sorted by volume descending and truncated to
10, scored with the two 50-capped terms, concatenated, globally sorted
by opportunity score descending and truncated to 20 — and every
returned score is at most 100. -/
theorem c5_keyword_gap_pipeline (t1 t2 : DataFrame)
    (hpc : primaryCandidateCols (ciCombined t1 t2) ≠ [])
    (hv1 : t1.isEmpty = false → cleanVolumes t1)
    (hv2 : t2.isEmpty = false → cleanVolumes t2) :
    c5Prop t1 t2 := by
  intro res s' hres
  rw [analyze_init t1 t2 hpc] at hres
  simp only [Except.ok.injEq, Prod.mk.injEq] at hres
  obtain ⟨hr, _⟩ := hres
  rw [← hr]
  refine ⟨analyze_eq_spec hpc hv1 hv2, ?_, ?_, ?_⟩
  · rw [List.length_take]
    exact min_le_left _ _
  · exact List.Pairwise.sublist (List.take_sublist _ _) (sortDescBy_sorted _ _)
  · intro e he
    have he2 : e ∈ ciAllGaps t1 t2 := List.take_subset _ _ he
    have he3 := mem_sortDescBy.mp he2
    obtain ⟨comp, _, he4⟩ := mem_foldr_append.mp he3
    obtain ⟨r, hrg, hscore⟩ := mem_gapEntriesFor he4
    have hrow : r ∈ (gapsCombined t1 t2).rows := by
      unfold gapRows at hrg
      exact (List.filter_sublist _).subset hrg
    have hvol := rows_volume_clean hv1 hv2 r hrow
    obtain ⟨v, hv⟩ := Option.isSome_iff_exists.mp hvol
    have hgap : isGapRow (ciPrimary t1 t2) comp.domain r = true := List.of_mem_filter hrg
    have hpos : cellPos (r comp.domain) = true := by
      unfold isGapRow at hgap
      exact (Bool.and_eq_true _ _ |>.mp hgap).2
    obtain ⟨tq, htq, _⟩ := cellPos_cellNum hpos
    obtain ⟨va, hva⟩ : ∃ va, cellNum
        (rowGet (gapsCombined t1 t2).cols r "Search Volume" (.num 0)) = some va := by
      unfold rowGet
      split_ifs
      · exact ⟨v, hv⟩
      · exact ⟨0, rfl⟩
    obtain ⟨vb, hvb⟩ : ∃ vb, cellNum
        (rowGet (gapsCombined t1 t2).cols r comp.domain (.num 0)) = some vb := by
      unfold rowGet
      split_ifs
      · exact ⟨tq, htq⟩
      · exact ⟨0, rfl⟩
    rw [hscore]
    unfold opportunity_score_of
    rw [hva, hvb]
    refine ⟨_, rfl, ?_⟩
    have m1 := min_le_right (va / 10000 * 50) 50
    have m2 := min_le_right (vb / 1000 * 50) 50
    linarith

theorem wt1_clean : cleanVolumes wt1 := by
  constructor
  · simp [wt1]
  · intro r hr
    simp only [wt1, List.mem_cons, List.not_mem_nil, or_false] at hr
    rcases hr with rfl | rfl <;> simp [wRowA, cellNum]

theorem wt2_clean : cleanVolumes wt2 := by
  constructor
  · simp [wt2]
  · intro r hr
    simp only [wt2, List.mem_cons, List.not_mem_nil, or_false] at hr
    rcases hr with rfl
    simp [wRowA, cellNum]

theorem c5_witness : c5Prop wt1 wt2 :=
  c5_keyword_gap_pipeline wt1 wt2 (by rw [wt_pc]; simp)
    (fun _ => wt1_clean) (fun _ => wt2_clean)

theorem noSV_pc : primaryCandidateCols (ciCombined wtNoSV1 wtNoSV2) =
    ["p.com", "a.com"] := by
  simp [primaryCandidateCols, ciCombined, keywordFramesOf, wtNoSV1, wtNoSV2,
    DataFrame.isEmpty, concatDF, unionCols, isPrimaryCandidate, strHasChar,
    strContainsSub, listInfixOf, listPrefixOf, String.toList, List.filter]

theorem c10_witness : (ciAllGaps wtNoSV1 wtNoSV2).take 20 = [] :=
  c10_no_volume_no_gaps wtNoSV1 wtNoSV2 (by simp [wtNoSV1]) (by simp [wtNoSV2])
    ((ciAllGaps wtNoSV1 wtNoSV2).take 20) (ciState2 wtNoSV1 wtNoSV2)
    (analyze_init wtNoSV1 wtNoSV2 (by rw [noSV_pc]; simp))
